import Mathlib

/-!
Shallow embedding of the VTF codec of this repository (VTF header model,
image-size arithmetic, DXT1/DXT5 block codec, mipmap builder, VTF writer
and VTF loader), with theorems checking the specification's claims.

Conventions of the embedding:
* Bytes and buffer contents are `Nat` values (each byte < 256 where it
  matters); buffers are `List Nat`, read with `List.getD _ _ 0`.
* C++ `int` / `size_t` arithmetic that never overflows at the modelled
  call sites is mathematical `Nat`/`Int` arithmetic; explicit fixed-width
  struct fields and conversions (`uint8_t`, `uint16_t`, `uint32_t`,
  `uint32 -> int`) are modelled with `% 2^w` / two's-complement wrap,
  because those narrowing conversions are the defined behaviour.
* Out-parameter buffers become returned lists, or `Nat → Nat` stores when
  the claim is about which addresses are written.
-/

namespace VTF

/-! ## VTFFormat.h: image formats and size arithmetic -/

/-- `IMAGE_FORMAT_NONE` (enum value -1). -/
def IMAGE_FORMAT_NONE : Int := -1
/-- `IMAGE_FORMAT_RGBA8888`. -/
def IMAGE_FORMAT_RGBA8888 : Int := 0
/-- `IMAGE_FORMAT_DXT1`. -/
def IMAGE_FORMAT_DXT1 : Int := 13
/-- `IMAGE_FORMAT_DXT3`. -/
def IMAGE_FORMAT_DXT3 : Int := 14
/-- `IMAGE_FORMAT_DXT5`. -/
def IMAGE_FORMAT_DXT5 : Int := 15
/-- `IMAGE_FORMAT_DXT1_ONEBITALPHA`. -/
def IMAGE_FORMAT_DXT1_ONEBITALPHA : Int := 20

/-- `GetBytesPerPixel` from VTFFormat.h.  Format codes follow the
`VTFImageFormat` enum; compressed and unknown formats return 0. -/
def GetBytesPerPixel (format : Int) : Nat :=
  if format = 0 ∨ format = 1 ∨ format = 11 ∨ format = 12 ∨ format = 16 ∨
     format = 23 ∨ format = 26 then 4
  else if format = 2 ∨ format = 3 ∨ format = 9 ∨ format = 10 then 3
  else if format = 4 ∨ format = 17 ∨ format = 18 ∨ format = 21 ∨
          format = 19 ∨ format = 6 ∨ format = 22 then 2
  else if format = 5 ∨ format = 7 ∨ format = 8 then 1
  else if format = 24 ∨ format = 25 then 8
  else 0

/-- `CalculateImageSize` from VTFFormat.h: width/height clamped to ≥ 1,
DXT formats are sized per ceiling-padded 4×4 block (8 or 16 bytes each),
any other format is `w * h * bytesPerPixel`. -/
def CalculateImageSize (width height : Nat) (format : Int) : Nat :=
  let w := if width < 1 then 1 else width
  let h := if height < 1 then 1 else height
  if format = 13 ∨ format = 20 then
    ((w + 3) / 4) * ((h + 3) / 4) * 8
  else if format = 14 ∨ format = 15 then
    ((w + 3) / 4) * ((h + 3) / 4) * 16
  else
    w * h * GetBytesPerPixel format

/-- `FormatHasAlpha` from VTFFormat.h. -/
def FormatHasAlpha (format : Int) : Bool :=
  format = 0 ∨ format = 1 ∨ format = 11 ∨ format = 12 ∨ format = 21 ∨
  format = 19 ∨ format = 20 ∨ format = 14 ∨ format = 15 ∨ format = 8 ∨
  format = 6 ∨ format = 24 ∨ format = 25

/-! ## Byte-buffer primitives -/

/-- Read a byte (`data[i]`, 0 past the end). -/
def byteAt (data : List Nat) (i : Nat) : Nat := data.getD i 0

/-- Little-endian `uint16_t` read. -/
def readU16 (data : List Nat) (off : Nat) : Nat :=
  byteAt data off + 256 * byteAt data (off + 1)

/-- Little-endian `uint32_t` read. -/
def readU32 (data : List Nat) (off : Nat) : Nat :=
  byteAt data off + 256 * byteAt data (off + 1) +
  65536 * byteAt data (off + 2) + 16777216 * byteAt data (off + 3)

/-- Little-endian `uint16_t` bytes. -/
def u16le (v : Nat) : List Nat := [v % 256, v / 256 % 256]

/-- Little-endian `uint32_t` bytes. -/
def u32le (v : Nat) : List Nat :=
  [v % 256, v / 256 % 256, v / 65536 % 256, v / 16777216 % 256]

/-- `uint32_t` value converted to a (two's-complement) C++ `int`, as
every mainstream compiler defines the conversion. -/
def u32toInt (v : Nat) : Int :=
  if v < 2147483648 then (v : Int) else (v : Int) - 4294967296

/-- A C++ `int` stored into a `uint32_t` field. -/
def intToU32 (v : Int) : Nat := (v % 4294967296).toNat

/-- A byte store used where a claim is about which addresses get written:
`writeByte d i v` is `d` with address `i` set to `v`. -/
def writeByte (d : Nat → Nat) (i v : Nat) : Nat → Nat :=
  fun j => if j = i then v else d j

/-- One RGBA pixel (`uint8_t` quadruple). -/
structure Px where
  r : Nat
  g : Nat
  b : Nat
  a : Nat
deriving DecidableEq

/-- Write the four bytes of a pixel at byte address `i`
(`pixel[0..3] = r,g,b,a`). -/
def writePx (d : Nat → Nat) (i : Nat) (p : Px) : Nat → Nat :=
  writeByte (writeByte (writeByte (writeByte d i p.r) (i + 1) p.g) (i + 2) p.b)
    (i + 3) p.a

end VTF

namespace DXT

open VTF

/-! ## DXTDecompress.h: block decompression -/

/-- `DecodeColor565`: expand a 565 color word to 8-bit RGB, replicating
the high bits into the vacated low bits. -/
def DecodeColor565 (color : Nat) : Nat × Nat × Nat :=
  let r0 := (color >>> 11) <<< 3
  let g0 := ((color >>> 5) &&& 63) <<< 2
  let b0 := (color &&& 31) <<< 3
  (r0 ||| (r0 >>> 5), g0 ||| (g0 >>> 6), b0 ||| (b0 >>> 5))

/-- The 4-entry palette built by `DecompressDXT1Block` from the two
decoded endpoint colors. -/
def dxt1Palette (color0 color1 : Nat) (hasAlpha : Bool) : List Px :=
  let rgb0 := DecodeColor565 color0
  let rgb1 := DecodeColor565 color1
  let p0 : Px := ⟨rgb0.1, rgb0.2.1, rgb0.2.2, 255⟩
  let p1 : Px := ⟨rgb1.1, rgb1.2.1, rgb1.2.2, 255⟩
  if color0 > color1 ∨ ¬hasAlpha then
    [p0, p1,
     ⟨(2 * p0.r + p1.r) / 3, (2 * p0.g + p1.g) / 3, (2 * p0.b + p1.b) / 3, 255⟩,
     ⟨(p0.r + 2 * p1.r) / 3, (p0.g + 2 * p1.g) / 3, (p0.b + 2 * p1.b) / 3, 255⟩]
  else
    [p0, p1,
     ⟨(p0.r + p1.r) / 2, (p0.g + p1.g) / 2, (p0.b + p1.b) / 2, 255⟩,
     ⟨0, 0, 0, if hasAlpha then 0 else 255⟩]

/-- The 16 (y, x) pixel coordinates of a 4×4 block, y-major as the
source loops iterate them. -/
def blockPixels : List (Nat × Nat) :=
  (List.range 4).flatMap fun y => (List.range 4).map fun x => (y, x)

/-- `DecompressDXT1Block` acting on a byte store: reads the 8-byte block
at `src[off..]`, writes the 16 RGBA pixels at `dst + y*pitch + x*4`. -/
def DecompressDXT1Block (src : List Nat) (off : Nat) (dst : Nat → Nat)
    (base pitch : Nat) (hasAlpha : Bool) : Nat → Nat :=
  let color0 := readU16 src off
  let color1 := readU16 src (off + 2)
  let indices := readU32 src (off + 4)
  let palette := dxt1Palette color0 color1 hasAlpha
  blockPixels.foldl
    (fun d yx =>
      let idx := (indices >>> ((yx.1 * 4 + yx.2) * 2)) &&& 3
      writePx d (base + yx.1 * pitch + yx.2 * 4) (palette.getD idx ⟨0, 0, 0, 0⟩))
    dst

/-- `DecompressDXT3Block`: color via the DXT1 path on bytes 8–15, then
the 16 nibble-packed explicit alpha values overwrite the alpha bytes. -/
def DecompressDXT3Block (src : List Nat) (off : Nat) (dst : Nat → Nat)
    (base pitch : Nat) : Nat → Nat :=
  let afterColor := DecompressDXT1Block src (off + 8) dst base pitch false
  blockPixels.foldl
    (fun d yx =>
      let alphaIdx := yx.1 * 4 + yx.2
      let nib := if alphaIdx % 2 = 1
        then (byteAt src (off + alphaIdx / 2) >>> 4) &&& 15
        else byteAt src (off + alphaIdx / 2) &&& 15
      let alpha := nib ||| (nib <<< 4)
      writeByte d (base + yx.1 * pitch + yx.2 * 4 + 3) alpha)
    afterColor

/-- The 8-entry alpha palette of the DXT5 codec; the same formulas are
used by `DecompressDXT5Block` and by `CompressDXT5Block`. -/
def dxt5AlphaPalette (alpha0 alpha1 : Nat) : List Nat :=
  if alpha0 > alpha1 then
    [alpha0, alpha1,
     (6 * alpha0 + 1 * alpha1) / 7, (5 * alpha0 + 2 * alpha1) / 7,
     (4 * alpha0 + 3 * alpha1) / 7, (3 * alpha0 + 4 * alpha1) / 7,
     (2 * alpha0 + 5 * alpha1) / 7, (1 * alpha0 + 6 * alpha1) / 7]
  else
    [alpha0, alpha1,
     (4 * alpha0 + 1 * alpha1) / 5, (3 * alpha0 + 2 * alpha1) / 5,
     (2 * alpha0 + 3 * alpha1) / 5, (1 * alpha0 + 4 * alpha1) / 5,
     0, 255]

/-- The claim's 8-step interpolation palette,
`palette[i+2] = ((6-i)*a0 + (i+1)*a1) / 7`, written out for comparison
with the branch `dxt5AlphaPalette` actually takes. -/
def dxt5AlphaPalette8Step (alpha0 alpha1 : Nat) : List Nat :=
  [alpha0, alpha1,
   (6 * alpha0 + 1 * alpha1) / 7, (5 * alpha0 + 2 * alpha1) / 7,
   (4 * alpha0 + 3 * alpha1) / 7, (3 * alpha0 + 4 * alpha1) / 7,
   (2 * alpha0 + 5 * alpha1) / 7, (1 * alpha0 + 6 * alpha1) / 7]

/-- The 48-bit DXT5 alpha index word read from bytes 2–7. -/
def dxt5AlphaIndices (src : List Nat) (off : Nat) : Nat :=
  (List.range 6).foldl (fun acc i => acc ||| (byteAt src (off + 2 + i) <<< (i * 8))) 0

/-- `DecompressDXT5Block`: interpolated alpha block then the DXT1 color
path on bytes 8–15; alpha is overwritten from the alpha palette. -/
def DecompressDXT5Block (src : List Nat) (off : Nat) (dst : Nat → Nat)
    (base pitch : Nat) : Nat → Nat :=
  let alpha0 := byteAt src off
  let alpha1 := byteAt src (off + 1)
  let alphaPalette := dxt5AlphaPalette alpha0 alpha1
  let alphaIndices := dxt5AlphaIndices src off
  let afterColor := DecompressDXT1Block src (off + 8) dst base pitch false
  blockPixels.foldl
    (fun d yx =>
      let pixelIdx := yx.1 * 4 + yx.2
      let alphaIdx := (alphaIndices >>> (pixelIdx * 3)) &&& 7
      writeByte d (base + yx.1 * pitch + yx.2 * 4 + 3) (alphaPalette.getD alphaIdx 0))
    afterColor

/-- The `switch (format)` of `DecompressDXT`: decode one block at source
offset `srcOff` into the store, and advance the source offset (8 bytes for
DXT1 variants, 16 for DXT3/DXT5, unchanged for anything else). -/
def decodeBlockAt (src : List Nat) (srcOff : Nat) (d : Nat → Nat)
    (base pitch : Nat) (format : Int) : (Nat → Nat) × Nat :=
  if format = 13 ∨ format = 20 then
    (DecompressDXT1Block src srcOff d base pitch (format = 20), srcOff + 8)
  else if format = 14 then
    (DecompressDXT3Block src srcOff d base pitch, srcOff + 16)
  else if format = 15 then
    (DecompressDXT5Block src srcOff d base pitch, srcOff + 16)
  else
    (d, srcOff)

/-- One iteration of the block loop of `DecompressDXT`: a full block is
decoded straight into `dst`; a block overhanging the right/bottom edge is
decoded into a 64-byte temporary block (pitch 16) of which only the
in-bounds `copyWidth*copyHeight` pixels are copied out. -/
def decompressStep (src : List Nat) (width height : Nat) (format : Int)
    (acc : (Nat → Nat) × Nat) (b : Nat × Nat) : (Nat → Nat) × Nat :=
  let dstPitch := width * 4
  let blockX := b.2 * 4
  let blockY := b.1 * 4
  let isPartial := blockX + 4 > width ∨ blockY + 4 > height
  if isPartial then
    let tmp := decodeBlockAt src acc.2 (fun _ => 0) 0 16 format
    let copyWidth := if blockX + 4 ≤ width then 4 else width - blockX
    let copyHeight := if blockY + 4 ≤ height then 4 else height - blockY
    let copied := ((List.range copyHeight).flatMap fun y =>
        (List.range (copyWidth * 4)).map fun t => (y, t)).foldl
      (fun d yt =>
        writeByte d ((blockY + yt.1) * dstPitch + blockX * 4 + yt.2)
          (tmp.1 (yt.1 * 16 + yt.2)))
      acc.1
    (copied, tmp.2)
  else
    decodeBlockAt src acc.2 acc.1 (blockY * dstPitch + blockX * 4) dstPitch format

/-- `DecompressDXT`: iterate the ceiling-padded block grid in row-major
order, threading the advancing source offset. -/
def DecompressDXT (src : List Nat) (dst : Nat → Nat) (width height : Nat)
    (format : Int) : Nat → Nat :=
  let blocksX := (width + 3) / 4
  let blocksY := (height + 3) / 4
  (((List.range blocksY).flatMap fun by_ => (List.range blocksX).map fun bx => (by_, bx)).foldl
    (decompressStep src width height format) (dst, 0)).1

end DXT

namespace DXTCompress

open VTF

/-! ## DXT compression (VTFWriter.h) -/

/-- Minimum of the 16 values of channel `c` of a 4×4 RGBA block: the
source's `minColor[c]` running minimum, starting from 255. -/
def chanMin (rgba : List Nat) (c : Nat) : Nat :=
  ((List.range 16).map fun i => byteAt rgba (i * 4 + c)).foldl min 255

/-- Maximum of the 16 values of channel `c`: the source's `maxColor[c]`
running maximum, starting from 0. -/
def chanMax (rgba : List Nat) (c : Nat) : Nat :=
  ((List.range 16).map fun i => byteAt rgba (i * 4 + c)).foldl max 0

/-- Truncating RGB888 → RGB565 packing used by `CompressDXT1Block`. -/
def pack565 (r g b : Nat) : Nat :=
  ((r >>> 3) <<< 11) ||| ((g >>> 2) <<< 5) ||| (b >>> 3)

/-- The `bestIdx` selection loop: index of the first strict minimum of
the candidate distances, starting from `bestIdx = 0`, `bestDist = INT_MAX`. -/
def selectMin (cands : List Int) : Nat :=
  (cands.foldl
    (fun (acc : Nat × Nat × Int) dist =>
      if dist < acc.2.2 then (acc.2.1, acc.2.1 + 1, dist)
      else (acc.1, acc.2.1 + 1, acc.2.2))
    (0, 0, 2147483647)).1

/-- Squared RGB distance between block pixel `i` and palette entry `p`. -/
def rgbDist (rgba : List Nat) (i : Nat) (p : Nat × Nat × Nat) : Int :=
  ((byteAt rgba (i * 4) : Int) - p.1) ^ 2 +
  ((byteAt rgba (i * 4 + 1) : Int) - p.2.1) ^ 2 +
  ((byteAt rgba (i * 4 + 2) : Int) - p.2.2) ^ 2

/-- `CompressDXT1Block`: per-channel min/max endpoints packed to 565
(swapped if needed so the 16-bit words satisfy `color0 ≥ color1`), the
4-entry interpolated palette, and 16 two-bit nearest-palette indices.
Returns the 8 output bytes. -/
def CompressDXT1Block (rgba : List Nat) : List Nat :=
  let minColor := (chanMin rgba 0, chanMin rgba 1, chanMin rgba 2)
  let maxColor := (chanMax rgba 0, chanMax rgba 1, chanMax rgba 2)
  let word0 := pack565 maxColor.1 maxColor.2.1 maxColor.2.2
  let word1 := pack565 minColor.1 minColor.2.1 minColor.2.2
  -- if (color0 < color1) swap the words and the min/max triples
  let color0 := if word0 < word1 then word1 else word0
  let color1 := if word0 < word1 then word0 else word1
  let hi := if word0 < word1 then minColor else maxColor
  let lo := if word0 < word1 then maxColor else minColor
  let palette : List (Nat × Nat × Nat) :=
    [hi, lo,
     ((2 * hi.1 + lo.1) / 3, (2 * hi.2.1 + lo.2.1) / 3, (2 * hi.2.2 + lo.2.2) / 3),
     ((hi.1 + 2 * lo.1) / 3, (hi.2.1 + 2 * lo.2.1) / 3, (hi.2.2 + 2 * lo.2.2) / 3)]
  let indices := (List.range 16).foldl
    (fun acc i =>
      acc ||| (selectMin (palette.map fun p => rgbDist rgba i p) <<< (i * 2)))
    0
  [color0 % 256, color0 / 256 % 256, color1 % 256, color1 / 256 % 256] ++
    u32le indices

/-- The 16 alpha values of a block, in pixel order. -/
def blockAlphas (rgba : List Nat) : List Nat :=
  (List.range 16).map fun i => byteAt rgba (i * 4 + 3)

/-- The source's running minimum of the alphas, starting from 255. -/
def minAlpha (rgba : List Nat) : Nat := (blockAlphas rgba).foldl min 255

/-- The source's running maximum of the alphas, starting from 0. -/
def maxAlpha (rgba : List Nat) : Nat := (blockAlphas rgba).foldl max 0

/-- `CompressDXT5Block`: alpha endpoints `maxAlpha, minAlpha` in bytes
0–1, the 8-entry alpha palette (same formulas as the decoder), 16
three-bit nearest-alpha indices in bytes 2–7, then a DXT1 color block.
Returns the 16 output bytes. -/
def CompressDXT5Block (rgba : List Nat) : List Nat :=
  let maxA := maxAlpha rgba
  let minA := minAlpha rgba
  let alphaPalette := DXT.dxt5AlphaPalette maxA minA
  let alphaIndices := (List.range 16).foldl
    (fun acc i =>
      acc |||
        (selectMin (alphaPalette.map fun p =>
            |(byteAt rgba (i * 4 + 3) : Int) - (p : Int)|) <<< (i * 3)))
    0
  [maxA, minA] ++
    ((List.range 6).map fun i => (alphaIndices >>> (i * 8)) &&& 255) ++
    CompressDXT1Block rgba

end DXTCompress

namespace VTF

/-- Channel accessor: channel `c` of a pixel in R,G,B,A order. -/
def pxChan (p : Px) (c : Nat) : Nat :=
  if c = 0 then p.r else if c = 1 then p.g else if c = 2 then p.b else p.a

/-- `mipWidth > 1 ? mipWidth / 2 : 1` — the next-mip dimension step used
by the writer and the loader. -/
def halveDim (w : Nat) : Nat := if w > 1 then w / 2 else 1

end VTF

namespace VTFWriter

open VTF

/-! ## VTFWriter.h: encoder -/

/-- The writer's fields (class `VTFWriter`), with its member initialisers:
format defaults to DXT5, flags to `TEXTUREFLAGS_NORMAL`, mipmap
generation on. -/
structure WriterState where
  sourceRGBA : List Nat := []
  width : Nat := 0
  height : Nat := 0
  hasAlpha : Bool := false
  format : Int := 15
  flags : Nat := 128
  generateMipmaps : Bool := true

/-- `VTFWriter::SetImageData`: copy `width*height*4` source bytes, record
the dimensions and alpha flag, and auto-downgrade DXT5 to DXT1 when the
source has no alpha. -/
def SetImageData (w : WriterState) (rgba : List Nat) (width height : Nat)
    (hasAlpha : Bool) : WriterState :=
  { w with
    width := width
    height := height
    hasAlpha := hasAlpha
    sourceRGBA := (List.range (width * height * 4)).map fun i => byteAt rgba i
    format := if ¬hasAlpha ∧ w.format = 15 then 13 else w.format }

/-- One destination pixel channel of the box-filter downscale: the
truncating average of the source pixels of the 2×2 footprint at
`(x*2, y*2)` that lie inside the `w × h` source. -/
def mipPixel (src : List Nat) (w h x y c : Nat) : Nat :=
  let pts := ((List.range 2).flatMap fun dy =>
      (List.range 2).map fun dx => (dy, dx)).filter
    fun p => y * 2 + p.1 < h ∧ x * 2 + p.2 < w
  (pts.map fun p => byteAt src (((y * 2 + p.1) * w + (x * 2 + p.2)) * 4 + c)).sum /
    pts.length

/-- The number of in-bounds source pixels of the 2×2 footprint at
`(x*2, y*2)` — the `count` accumulated by the downscale loop. -/
def mipFootprintCount (w h x y : Nat) : Nat :=
  (((List.range 2).flatMap fun dy =>
      (List.range 2).map fun dx => (dy, dx)).filter
    fun p => y * 2 + p.1 < h ∧ x * 2 + p.2 < w).length

/-- One simple box-filter downscale step of `VTFWriter::GenerateMipmaps`:
a `nw × nh` RGBA image computed pixel-by-pixel from the `w × h` source. -/
def downsample (src : List Nat) (w h nw nh : Nat) : List Nat :=
  (List.range nh).flatMap fun y =>
    (List.range nw).flatMap fun x =>
      (List.range 4).map fun c => mipPixel src w h x y c

/-- The `while (mipWidth > 1 || mipHeight > 1)` loop of
`VTFWriter::GenerateMipmaps`: the chain of mip images starting at the
given image, each level downsampled from the previous one. -/
def buildMips (src : List Nat) (w h : Nat) : List (List Nat) :=
  src ::
    (if w > 1 ∨ h > 1 then
      buildMips (downsample src w h (halveDim w) (halveDim h)) (halveDim w) (halveDim h)
    else [])
termination_by max w 1 + max h 1
decreasing_by
  simp only [halveDim]
  split <;> split <;> omega

/-- `VTFWriter::GenerateMipmaps`: level 0 is always the unmodified
source; further levels only when mipmap generation is enabled. -/
def GenerateMipmaps (w : WriterState) : List (List Nat) :=
  if ¬w.generateMipmaps then [w.sourceRGBA]
  else buildMips w.sourceRGBA w.width w.height

/-- The chain of mip dimensions produced by the same loop: level 0 is
`(w, h)`, each further level halves (floor, min 1) until both reach 1. -/
def mipDims (w h : Nat) : List (Nat × Nat) :=
  (w, h) ::
    (if w > 1 ∨ h > 1 then mipDims (halveDim w) (halveDim h) else [])
termination_by max w 1 + max h 1
decreasing_by
  simp only [halveDim]
  split <;> split <;> omega

/-- The 4×4 block extraction loop of `VTFWriter::CompressImage`: in-bounds
pixels are copied from the source, out-of-bounds pixels are zeroed. -/
def extractBlock (rgba : List Nat) (width height bx by_ : Nat) : List Nat :=
  (List.range 4).flatMap fun y =>
    (List.range 4).flatMap fun x =>
      let srcX := bx * 4 + x
      let srcY := by_ * 4 + y
      if srcX < width ∧ srcY < height then
        [byteAt rgba ((srcY * width + srcX) * 4),
         byteAt rgba ((srcY * width + srcX) * 4 + 1),
         byteAt rgba ((srcY * width + srcX) * 4 + 2),
         byteAt rgba ((srcY * width + srcX) * 4 + 3)]
      else [0, 0, 0, 0]

/-- `VTFWriter::ConvertFromRGBA` writing into a zero-filled buffer of
`width*height*GetBytesPerPixel(format)` bytes (the `resize` in
`CompressImage`): only RGBA8888, BGRA8888, RGB888 and BGR888 convert;
any other format leaves the zero bytes. -/
def ConvertFromRGBA (format : Int) (rgba : List Nat) (width height : Nat) : List Nat :=
  let pixelCount := width * height
  if format = 0 then
    (List.range (pixelCount * 4)).map fun i => byteAt rgba i
  else if format = 12 then
    (List.range pixelCount).flatMap fun i =>
      [byteAt rgba (i * 4 + 2), byteAt rgba (i * 4 + 1),
       byteAt rgba (i * 4), byteAt rgba (i * 4 + 3)]
  else if format = 2 then
    (List.range pixelCount).flatMap fun i =>
      [byteAt rgba (i * 4), byteAt rgba (i * 4 + 1), byteAt rgba (i * 4 + 2)]
  else if format = 3 then
    (List.range pixelCount).flatMap fun i =>
      [byteAt rgba (i * 4 + 2), byteAt rgba (i * 4 + 1), byteAt rgba (i * 4)]
  else
    List.replicate (pixelCount * GetBytesPerPixel format) 0

/-- `VTFWriter::CompressImage`: DXT1/DXT5 block compression over the
ceiling-padded block grid (row-major), or the uncompressed conversion. -/
def CompressImage (format : Int) (rgba : List Nat) (width height : Nat) : List Nat :=
  if format = 13 ∨ format = 20 then
    (List.range ((height + 3) / 4)).flatMap fun by_ =>
      (List.range ((width + 3) / 4)).flatMap fun bx =>
        DXTCompress.CompressDXT1Block (extractBlock rgba width height bx by_)
  else if format = 15 then
    (List.range ((height + 3) / 4)).flatMap fun by_ =>
      (List.range ((width + 3) / 4)).flatMap fun bx =>
        DXTCompress.CompressDXT5Block (extractBlock rgba width height bx by_)
  else
    ConvertFromRGBA format rgba width height

/-- The 80-byte v7.2 header emitted by `VTFWriter::WriteToMemory`
(field-by-field little-endian serialisation of the `VTFHeader` struct;
`0.5f` is bytes 00 00 00 3F, `1.0f` is 00 00 80 3F; `lowResImageFormat`
is `IMAGE_FORMAT_NONE` stored in a `uint32_t`, i.e. FF FF FF FF). -/
def writeHeaderBytes (wr : WriterState) (mipCount : Nat) : List Nat :=
  [86, 84, 70, 0,                                      -- signature "VTF\0"
   7, 0, 0, 0, 2, 0, 0, 0,                             -- version 7.2
   80, 0, 0, 0,                                        -- headerSize = 80
   wr.width % 256, wr.width / 256 % 256,               -- width (uint16)
   wr.height % 256, wr.height / 256 % 256,             -- height (uint16)
   wr.flags % 256, wr.flags / 256 % 256,
     wr.flags / 65536 % 256, wr.flags / 16777216 % 256, -- flags
   1, 0, 0, 0,                                         -- frames=1, firstFrame=0
   0, 0, 0, 0,                                         -- padding0
   0, 0, 0, 63, 0, 0, 0, 63, 0, 0, 0, 63,              -- reflectivity 0.5f x3
   0, 0, 0, 0,                                         -- padding1
   0, 0, 128, 63,                                      -- bumpmapScale 1.0f
   intToU32 wr.format % 256, intToU32 wr.format / 256 % 256,
     intToU32 wr.format / 65536 % 256, intToU32 wr.format / 16777216 % 256,
   mipCount % 256,                                     -- mipmapCount (uint8)
   255, 255, 255, 255,                                 -- lowResImageFormat = NONE
   0, 0,                                               -- lowRes width/height
   1, 0,                                               -- depth = 1
   0, 0, 0,                                            -- padding2
   0, 0, 0, 0,                                         -- numResources
   0, 0, 0, 0, 0, 0, 0, 0]                             -- padding3

/-- `VTFWriter::WriteToMemory`: header followed by each mip level's
compressed bytes, smallest mip first (loop from `m_mipmaps.size()-1`
down to 0, dimensions `m_width >> mip` clamped to ≥ 1). -/
def WriteToMemory (wr : WriterState) : List Nat :=
  let mipmaps := GenerateMipmaps wr
  writeHeaderBytes wr mipmaps.length ++
    (List.range mipmaps.length).reverse.flatMap fun mip =>
      let mw := wr.width >>> mip
      let mh := wr.height >>> mip
      CompressImage wr.format (mipmaps.getD mip [])
        (if mw < 1 then 1 else mw) (if mh < 1 then 1 else mh)

end VTFWriter

namespace VTFLoader

open VTF

/-! ## VTFLoader.h: decoder -/

/-- The loader's observable fields (class `VTFLoader`) with their member
initialisers.  `m_width/m_height/m_frameCount/m_mipmapCount` are C++
`int`s that only ever hold non-negative values read from `uint16_t` /
`uint8_t` header fields, so they are `Nat` here; the version fields and
the format can receive wrapped (negative) values and stay `Int`. -/
structure LoaderState where
  width : Nat := 0
  height : Nat := 0
  frameCount : Nat := 0
  mipmapCount : Nat := 0
  hasAlpha : Bool := false
  format : Int := -1
  versionMajor : Int := 0
  versionMinor : Int := 0
  rgbaData : List Nat := []
  error : String := ""
deriving DecidableEq

/-- The initial state of a freshly constructed `VTFLoader`. -/
def initLoader : LoaderState := {}

/-- `VTFLoader::ParseHeader`: size check, signature check, version check
(note: the version fields are assigned *before* the version check), then
the header fields are stored with `frames`/`mipmapCount` clamped to ≥ 1.
Returns `(success, new state)`. -/
def ParseHeader (s : LoaderState) (data : List Nat) : Bool × LoaderState :=
  if data.length < 80 then
    (false, { s with error := "File too small for VTF header" })
  else if ¬(byteAt data 0 = 86 ∧ byteAt data 1 = 84 ∧
            byteAt data 2 = 70 ∧ byteAt data 3 = 0) then
    (false, { s with error := "Invalid VTF signature" })
  else
    let s1 := { s with
      versionMajor := u32toInt (readU32 data 4)
      versionMinor := u32toInt (readU32 data 8) }
    if s1.versionMajor ≠ 7 ∨ s1.versionMinor > 5 then
      (false, { s1 with
        error := "Unsupported VTF version: " ++ toString s1.versionMajor ++
          "." ++ toString s1.versionMinor })
    else
      let fmt := u32toInt (readU32 data 52)
      let fc := readU16 data 24
      let mc := byteAt data 56
      (true, { s1 with
        width := readU16 data 16
        height := readU16 data 18
        frameCount := if fc < 1 then 1 else fc
        mipmapCount := if mc < 1 then 1 else mc
        format := fmt
        hasAlpha := FormatHasAlpha fmt })

/-- The first loop of `VTFLoader::DecodeImage`: total byte size of all
`count` mip levels (each × frame count), dimensions starting at `(w, h)`
and halving after each level. -/
def totalMipBytes (w h : Nat) (fmt : Int) (frames : Nat) : Nat → Nat
  | 0 => 0
  | k + 1 =>
    CalculateImageSize w h fmt * frames +
      totalMipBytes (halveDim w) (halveDim h) fmt frames k

/-- The second loop of `VTFLoader::DecodeImage`: bytes to skip to reach
mip 0, i.e. the sizes of the `count-1` smaller levels, halving *before*
each level's size is added. -/
def skipSmallerBytes (w h : Nat) (fmt : Int) (frames : Nat) : Nat → Nat
  | 0 => 0
  | k + 1 =>
    CalculateImageSize (halveDim w) (halveDim h) fmt * frames +
      skipSmallerBytes (halveDim w) (halveDim h) fmt frames k

/-- `VTFLoader::ConvertToRGBA` producing the `width*height*4`-byte
destination buffer and the soft error message set by the unsupported-
format fallback (`none` when the format is recognised). -/
def ConvertToRGBA (src : List Nat) (width height : Nat) (format : Int) :
    List Nat × Option String :=
  let pixelCount := width * height
  if format = 0 then        -- RGBA8888: plain copy
    ((List.range (pixelCount * 4)).map fun i => byteAt src i, none)
  else if format = 1 then   -- ABGR8888
    ((List.range pixelCount).flatMap fun i =>
      [byteAt src (i * 4 + 3), byteAt src (i * 4 + 2),
       byteAt src (i * 4 + 1), byteAt src (i * 4)], none)
  else if format = 2 then   -- RGB888
    ((List.range pixelCount).flatMap fun i =>
      [byteAt src (i * 3), byteAt src (i * 3 + 1), byteAt src (i * 3 + 2), 255],
     none)
  else if format = 3 then   -- BGR888
    ((List.range pixelCount).flatMap fun i =>
      [byteAt src (i * 3 + 2), byteAt src (i * 3 + 1), byteAt src (i * 3), 255],
     none)
  else if format = 11 then  -- ARGB8888
    ((List.range pixelCount).flatMap fun i =>
      [byteAt src (i * 4 + 1), byteAt src (i * 4 + 2),
       byteAt src (i * 4 + 3), byteAt src (i * 4)], none)
  else if format = 12 then  -- BGRA8888
    ((List.range pixelCount).flatMap fun i =>
      [byteAt src (i * 4 + 2), byteAt src (i * 4 + 1),
       byteAt src (i * 4), byteAt src (i * 4 + 3)], none)
  else if format = 16 then  -- BGRX8888
    ((List.range pixelCount).flatMap fun i =>
      [byteAt src (i * 4 + 2), byteAt src (i * 4 + 1), byteAt src (i * 4), 255],
     none)
  else if format = 13 ∨ format = 20 ∨ format = 14 ∨ format = 15 then
    ((List.range (pixelCount * 4)).map fun i =>
      DXT.DecompressDXT src (fun _ => 0) width height format i, none)
  else if format = 5 then   -- I8
    ((List.range pixelCount).flatMap fun i =>
      [byteAt src i, byteAt src i, byteAt src i, 255], none)
  else if format = 6 then   -- IA88
    ((List.range pixelCount).flatMap fun i =>
      [byteAt src (i * 2), byteAt src (i * 2), byteAt src (i * 2),
       byteAt src (i * 2 + 1)], none)
  else if format = 8 then   -- A8
    ((List.range pixelCount).flatMap fun i =>
      [255, 255, 255, byteAt src i], none)
  else                      -- unsupported: magenta fill + soft error
    ((List.range pixelCount).flatMap fun _ => [255, 0, 255, 255],
     some ("Unsupported image format: " ++ toString format))

/-- Is `format` one of the cases `VTFLoader::ConvertToRGBA` recognises
(everything except its `default:` magenta fallback)? -/
def convertRecognizes (format : Int) : Bool :=
  format = 0 ∨ format = 1 ∨ format = 2 ∨ format = 3 ∨ format = 11 ∨
  format = 12 ∨ format = 16 ∨ format = 13 ∨ format = 20 ∨ format = 14 ∨
  format = 15 ∨ format = 5 ∨ format = 6 ∨ format = 8

/-- The `dataOffset` computed by `VTFLoader::DecodeImage`: the header's
`headerSize` field plus, when a thumbnail is declared
(`lowResImageFormat != NONE` and both low-res dimensions > 0), the
thumbnail's size. -/
def dataOffset (data : List Nat) : Nat :=
  readU32 data 12 +
    (if readU32 data 57 ≠ 4294967295 ∧ byteAt data 61 > 0 ∧ byteAt data 62 > 0 then
      CalculateImageSize (byteAt data 61) (byteAt data 62) (u32toInt (readU32 data 57))
    else 0)

/-- `VTFLoader::DecodeImage`: truncation check against the total body
size, then decode mip 0 (stored after all smaller mips) into RGBA. -/
def DecodeImage (s : LoaderState) (data : List Nat) : Bool × LoaderState :=
  let off := dataOffset data
  let total := totalMipBytes s.width s.height s.format s.frameCount s.mipmapCount
  if off + total > data.length then
    (false, { s with error := "File truncated - not enough image data" })
  else
    let mip0 := off + skipSmallerBytes s.width s.height s.format s.frameCount
      (s.mipmapCount - 1)
    let conv := ConvertToRGBA (data.drop mip0) s.width s.height s.format
    (true, { s with
      rgbaData := conv.1
      error := match conv.2 with
        | some e => e
        | none => s.error })

/-- `VTFLoader::LoadFromMemory`: parse the header, then decode. -/
def LoadFromMemory (s : LoaderState) (data : List Nat) : Bool × LoaderState :=
  let p := ParseHeader s data
  if p.1 then DecodeImage p.2 data else p

/-- Spec-side description of the smaller-mip dimension chain: the `k`
dimension pairs obtained by successively halving `(w, h)`, smallest level
of interest first in derivation order (level 1, level 2, ...). -/
def levelDims (w h : Nat) : Nat → List (Nat × Nat)
  | 0 => []
  | k + 1 => (halveDim w, halveDim h) :: levelDims (halveDim w) (halveDim h) k

/-- Spec-side description of all `k` mip level dimensions starting at
`(w, h)` itself. -/
def allLevelDims (w h : Nat) : Nat → List (Nat × Nat)
  | 0 => []
  | k + 1 => (w, h) :: allLevelDims (halveDim w) (halveDim h) k

end VTFLoader

/-! ## Concrete inputs used by counterexamples and witnesses -/

/-- A 4×4 block whose 16 pixels are all `(7, 0, 0, 255)`. -/
def blkRed7 : List Nat := (List.range 16).flatMap fun _ => [7, 0, 0, 255]

/-- A 4×4 block with 8 pixels `(255, 0, 0, 255)` and 8 pixels
`(0, 255, 0, 255)`. -/
def blkMix : List Nat :=
  ((List.range 8).flatMap fun _ => [255, 0, 0, 255]) ++
    ((List.range 8).flatMap fun _ => [0, 255, 0, 255])

/-- A 4×4 block whose 16 pixels are all `(1, 2, 3, 128)` — constant
alpha 128. -/
def blkA128 : List Nat := (List.range 16).flatMap fun _ => [1, 2, 3, 128]

/-- The claim's DXT1 round trip: compress a 4×4 RGBA block, then
decompress the 8 output bytes (into a 64-byte block, pitch 16,
`hasAlpha` defaulted to false). -/
def dxt1RoundTrip (block : List Nat) : Nat → Nat :=
  DXT.DecompressDXT1Block (DXTCompress.CompressDXT1Block block) 0 (fun _ => 0) 0 16 false

/-- An 80-byte header with the given 4 signature bytes and version pair,
everything else zero. -/
def plainHeader (sig : List Nat) (major minor : Nat) : List Nat :=
  sig ++ VTF.u32le major ++ VTF.u32le minor ++ List.replicate 68 0

/-- 80-byte buffer with signature `"XTF\0"` (X = 88) and version 7.0. -/
def xtfFile : List Nat := plainHeader [88, 84, 70, 0] 7 0

/-- 80-byte VTF buffer with version 7.6. -/
def ver76File : List Nat := plainHeader [86, 84, 70, 0] 7 6

/-- 80-byte VTF buffer with version 8.0. -/
def ver80File : List Nat := plainHeader [86, 84, 70, 0] 8 0

/-- 80-byte VTF buffer with version (7, 2^31): the minor field exceeds 5
as an unsigned value but wraps negative in the loader's `int`. -/
def verWrapFile : List Nat := plainHeader [86, 84, 70, 0] 7 2147483648

/-- 80-byte VTF buffer, version 7.0, headerSize 80, 2×2, format code 99,
no thumbnail: parses fine, and its (empty) body passes the truncation
check because format 99 has size 0. -/
def fmt99File : List Nat :=
  [86, 84, 70, 0] ++ VTF.u32le 7 ++ VTF.u32le 0 ++ VTF.u32le 80 ++
    VTF.u16le 2 ++ VTF.u16le 2 ++ List.replicate 32 0 ++ VTF.u32le 99 ++
    List.replicate 24 0

/-- 80-byte VTF header, version 7.0, headerSize 80, 16×16, frames 1,
DXT1 (13), mipmapCount 5, no thumbnail, followed by a 184-byte zero body
(32+8+8+8 bytes of smaller mips, then 128 bytes of mip 0). -/
def dxt16File : List Nat :=
  [86, 84, 70, 0] ++ VTF.u32le 7 ++ VTF.u32le 0 ++ VTF.u32le 80 ++
    VTF.u16le 16 ++ VTF.u16le 16 ++ VTF.u32le 0 ++ VTF.u16le 1 ++ VTF.u16le 0 ++
    List.replicate 24 0 ++ VTF.u32le 13 ++ [5] ++ [255, 255, 255, 255] ++
    [0, 0] ++ VTF.u16le 1 ++ List.replicate 15 0 ++ List.replicate 184 0

/-- Like `fmt99File` but with `headerSize` declared as 81: one byte more
than the 80 available, so the truncation check fires before conversion. -/
def fmt99TruncFile : List Nat :=
  [86, 84, 70, 0] ++ VTF.u32le 7 ++ VTF.u32le 0 ++ VTF.u32le 81 ++
    VTF.u16le 2 ++ VTF.u16le 2 ++ List.replicate 32 0 ++ VTF.u32le 99 ++
    List.replicate 24 0

/-- A well-formed 84-byte VTF file: version 7.0, headerSize 80, 1×1,
RGBA8888, mipmapCount 1, thumbnail format NONE, body `[9, 8, 7, 6]`. -/
def rgba1File : List Nat :=
  [86, 84, 70, 0] ++ VTF.u32le 7 ++ VTF.u32le 0 ++ VTF.u32le 80 ++
    VTF.u16le 1 ++ VTF.u16le 1 ++ List.replicate 32 0 ++ VTF.u32le 0 ++
    [1] ++ [255, 255, 255, 255] ++ [0, 0] ++ VTF.u16le 1 ++
    List.replicate 15 0 ++ [9, 8, 7, 6]

/-- A 4×4 block with constant RGB `(10, 20, 30)` and alphas
`0, 17, 34, ..., 255`. -/
def blkAVar : List Nat := (List.range 16).flatMap fun i => [10, 20, 30, i * 17]

/-! ## Claim C3: CalculateImageSize values -/

/-- C3 counterexample: the claim asserts `CalculateImageSize(5,5,DXT1) = 8`
("one padded block"), but a 5×5 DXT1 image needs a 2×2 grid of padded 4×4
blocks, i.e. 4 blocks of 8 bytes = 32 bytes. -/
theorem c3_size_5x5_dxt1_counterexample :
    VTF.CalculateImageSize 5 5 VTF.IMAGE_FORMAT_DXT1 = 32 ∧
    ¬ (VTF.CalculateImageSize 5 5 VTF.IMAGE_FORMAT_DXT1 = 8) := by
  decide

/-- C3 (amended): `CalculateImageSize(4,4,DXT1) = 8`,
`CalculateImageSize(5,5,DXT1) = 32` (a 2×2 grid of padded blocks),
`CalculateImageSize(4,4,DXT5) = 16`, `CalculateImageSize(2,2,RGBA8888) = 16`. -/
theorem c3_calculate_image_size_values :
    VTF.CalculateImageSize 4 4 VTF.IMAGE_FORMAT_DXT1 = 8 ∧
    VTF.CalculateImageSize 5 5 VTF.IMAGE_FORMAT_DXT1 = 32 ∧
    VTF.CalculateImageSize 4 4 VTF.IMAGE_FORMAT_DXT5 = 16 ∧
    VTF.CalculateImageSize 2 2 VTF.IMAGE_FORMAT_RGBA8888 = 16 := by
  decide

/-! ## General helper lemmas -/

theorem byteAt_lt_256 {data : List Nat} (h : ∀ x ∈ data, x < 256) (i : Nat) :
    VTF.byteAt data i < 256 := by
  unfold VTF.byteAt
  rcases lt_or_ge i data.length with hi | hi
  · rw [List.getD_eq_getElem data 0 hi]
    exact h _ (List.getElem_mem hi)
  · rw [List.getD_eq_default data 0 hi]
    norm_num

theorem getD_mem_of_lt {α : Type} {l : List α} {n : Nat} (h : n < l.length) (d : α) :
    l.getD n d ∈ l := by
  rw [List.getD_eq_getElem l d h]
  exact List.getElem_mem h

theorem foldl_min_le_init (l : List Nat) (a : Nat) : l.foldl min a ≤ a := by
  induction l generalizing a with
  | nil => simp
  | cons x t ih => exact le_trans (ih (min a x)) (min_le_left a x)

theorem foldl_min_le_mem (l : List Nat) (a x : Nat) (hx : x ∈ l) :
    l.foldl min a ≤ x := by
  induction l generalizing a with
  | nil => cases hx
  | cons y t ih =>
    rcases List.mem_cons.mp hx with rfl | hx'
    · exact le_trans (foldl_min_le_init t (min a x)) (min_le_right a x)
    · exact ih (min a y) hx'

theorem foldl_min_mem_cons (l : List Nat) (a : Nat) : l.foldl min a ∈ a :: l := by
  induction l generalizing a with
  | nil => simp
  | cons x t ih =>
    have h := ih (min a x)
    rcases List.mem_cons.mp h with h1 | h1
    · rcases min_choice a x with h2 | h2 <;> rw [List.foldl_cons, h1, h2] <;> simp
    · simp [List.foldl_cons, List.mem_cons.mpr (Or.inr (List.mem_cons.mpr (Or.inr h1)))]

theorem le_foldl_max_init (l : List Nat) (a : Nat) : a ≤ l.foldl max a := by
  induction l generalizing a with
  | nil => simp
  | cons x t ih => exact le_trans (le_max_left a x) (ih (max a x))

theorem le_foldl_max_mem (l : List Nat) (a x : Nat) (hx : x ∈ l) :
    x ≤ l.foldl max a := by
  induction l generalizing a with
  | nil => cases hx
  | cons y t ih =>
    rcases List.mem_cons.mp hx with rfl | hx'
    · exact le_trans (le_max_right a x) (le_foldl_max_init t (max a x))
    · exact ih (max a y) hx'

theorem foldl_max_mem_cons (l : List Nat) (a : Nat) : l.foldl max a ∈ a :: l := by
  induction l generalizing a with
  | nil => simp
  | cons x t ih =>
    have h := ih (max a x)
    rcases List.mem_cons.mp h with h1 | h1
    · rcases max_choice a x with h2 | h2 <;> rw [List.foldl_cons, h1, h2] <;> simp
    · simp [List.foldl_cons, List.mem_cons.mpr (Or.inr (List.mem_cons.mpr (Or.inr h1)))]

theorem range_flatMap_const (n : Nat) (L : List Nat) :
    (List.range n).flatMap (fun _ => L) = (List.replicate n L).flatten := by
  induction n with
  | zero => simp
  | succ k ih =>
    rw [List.range_succ, List.replicate_succ']
    simp [List.flatMap_append, ih]

theorem totalMipBytes_eq_sum (fmt : Int) (frames : Nat) :
    ∀ (k w h : Nat), VTFLoader.totalMipBytes w h fmt frames k =
      ((VTFLoader.allLevelDims w h k).map fun p =>
        VTF.CalculateImageSize p.1 p.2 fmt * frames).sum := by
  intro k
  induction k with
  | zero => intro w h; simp [VTFLoader.totalMipBytes, VTFLoader.allLevelDims]
  | succ m ih =>
    intro w h
    simp [VTFLoader.totalMipBytes, VTFLoader.allLevelDims, ih]

theorem skipSmallerBytes_eq_sum (fmt : Int) (frames : Nat) :
    ∀ (k w h : Nat), VTFLoader.skipSmallerBytes w h fmt frames k =
      ((VTFLoader.levelDims w h k).map fun p =>
        VTF.CalculateImageSize p.1 p.2 fmt * frames).sum := by
  intro k
  induction k with
  | zero => intro w h; simp [VTFLoader.skipSmallerBytes, VTFLoader.levelDims]
  | succ m ih =>
    intro w h
    simp [VTFLoader.skipSmallerBytes, VTFLoader.levelDims, ih]

/-! ## Claim C4: header validation -/

/-- C4 counterexample: the claim says validation succeeds only when the
version minor is at most 5, but the loader compares the minor after a
`uint32_t → int` conversion, so a minor field of 2^31 wraps negative and
passes validation. -/
theorem c4_version_wrap_counterexample :
    (VTFLoader.ParseHeader VTFLoader.initLoader verWrapFile).1 = true ∧
    ¬ (VTF.readU32 verWrapFile 8 ≤ 5) := by
  decide

/-- C4 (amended): `ParseHeader` succeeds iff the buffer is at least the
80-byte header, the signature is `V T F \0`, the version major (read as
a `uint32`) equals 7 and the version minor, *interpreted as a signed
32-bit integer*, is at most 5; a `"XTF\0"` signature fails with the
bad-signature error and versions 7.6 and 8.0 fail with the
unsupported-version error. -/
theorem c4_header_validation :
    (∀ (s : VTFLoader.LoaderState) (data : List Nat),
      (VTFLoader.ParseHeader s data).1 = true ↔
        (80 ≤ data.length ∧ VTF.byteAt data 0 = 86 ∧ VTF.byteAt data 1 = 84 ∧
         VTF.byteAt data 2 = 70 ∧ VTF.byteAt data 3 = 0 ∧
         VTF.u32toInt (VTF.readU32 data 4) = 7 ∧
         VTF.u32toInt (VTF.readU32 data 8) ≤ 5)) ∧
    ((VTFLoader.ParseHeader VTFLoader.initLoader xtfFile).1 = false ∧
      (VTFLoader.ParseHeader VTFLoader.initLoader xtfFile).2.error =
        "Invalid VTF signature") ∧
    ((VTFLoader.ParseHeader VTFLoader.initLoader ver76File).1 = false ∧
      (VTFLoader.ParseHeader VTFLoader.initLoader ver76File).2.error =
        "Unsupported VTF version: 7.6") ∧
    ((VTFLoader.ParseHeader VTFLoader.initLoader ver80File).1 = false ∧
      (VTFLoader.ParseHeader VTFLoader.initLoader ver80File).2.error =
        "Unsupported VTF version: 8.0") := by
  refine ⟨?_, by decide, by decide, by decide⟩
  intro s data
  simp only [VTFLoader.ParseHeader]
  split
  next h1 =>
    simp only [Bool.false_eq_true, false_iff]
    intro hc; omega
  next h1 =>
    split
    next h2 =>
      simp only [Bool.false_eq_true, false_iff]
      intro hc
      exact h2 ⟨hc.2.1, hc.2.2.1, hc.2.2.2.1, hc.2.2.2.2.1⟩
    next h2 =>
      split
      next h3 =>
        simp only [Bool.false_eq_true, false_iff]
        intro hc
        rcases h3 with h3 | h3
        · exact h3 hc.2.2.2.2.2.1
        · omega
      next h3 =>
        simp only [true_iff]
        push_neg at h2 h3
        exact ⟨by omega, h2.1, h2.2.1, h2.2.2.1, h2.2.2.2, h3.1, h3.2⟩

/-! ## Claim C9: no partial state on failed header validation -/

/-- C9 counterexample: a failed validation is claimed to leave every
observable field (version fields included) unchanged, but on an
unsupported-version failure (version 8.0) the loader has already stored
the header's version into `m_versionMajor`/`m_versionMinor`. -/
theorem c9_version_fields_counterexample :
    (VTFLoader.ParseHeader VTFLoader.initLoader ver80File).1 = false ∧
    ¬ ((VTFLoader.ParseHeader VTFLoader.initLoader ver80File).2.versionMajor =
        VTFLoader.initLoader.versionMajor) := by
  decide

/-- C9 (amended): on any failed header validation the width, height,
frame count, mipmap count, alpha flag, format and decoded data are
unchanged, and `LoadFromMemory` returns the parse result unchanged; the
version fields are unchanged too *except* on an unsupported-version
failure, where they hold the header's (wrap-converted) version values. -/
theorem c9_failed_parse_preserves_state (s : VTFLoader.LoaderState)
    (data : List Nat) (h : (VTFLoader.ParseHeader s data).1 = false) :
    (VTFLoader.ParseHeader s data).2.width = s.width ∧
    (VTFLoader.ParseHeader s data).2.height = s.height ∧
    (VTFLoader.ParseHeader s data).2.frameCount = s.frameCount ∧
    (VTFLoader.ParseHeader s data).2.mipmapCount = s.mipmapCount ∧
    (VTFLoader.ParseHeader s data).2.hasAlpha = s.hasAlpha ∧
    (VTFLoader.ParseHeader s data).2.format = s.format ∧
    (VTFLoader.ParseHeader s data).2.rgbaData = s.rgbaData ∧
    (((VTFLoader.ParseHeader s data).2.versionMajor = s.versionMajor ∧
      (VTFLoader.ParseHeader s data).2.versionMinor = s.versionMinor) ∨
     ((VTFLoader.ParseHeader s data).2.versionMajor =
        VTF.u32toInt (VTF.readU32 data 4) ∧
      (VTFLoader.ParseHeader s data).2.versionMinor =
        VTF.u32toInt (VTF.readU32 data 8))) ∧
    VTFLoader.LoadFromMemory s data = VTFLoader.ParseHeader s data := by
  simp only [VTFLoader.LoadFromMemory]
  simp only [VTFLoader.ParseHeader] at h ⊢
  split at h
  next h1 => simp only [if_pos h1]; simp
  next h1 =>
    split at h
    next h2 => simp only [if_neg h1, if_pos h2]; simp
    next h2 =>
      split at h
      next h3 => simp only [if_neg h1, if_neg h2, if_pos h3]; simp
      next h3 => simp at h

/-- C9 witness: the amended theorem applied to the fresh loader and the
bad-signature file. -/
theorem c9_failed_parse_preserves_state_witness :
    (VTFLoader.ParseHeader VTFLoader.initLoader xtfFile).1 = false ∧
    ((VTFLoader.ParseHeader VTFLoader.initLoader xtfFile).2.width =
        VTFLoader.initLoader.width ∧
     (VTFLoader.ParseHeader VTFLoader.initLoader xtfFile).2.height =
        VTFLoader.initLoader.height ∧
     (VTFLoader.ParseHeader VTFLoader.initLoader xtfFile).2.frameCount =
        VTFLoader.initLoader.frameCount ∧
     (VTFLoader.ParseHeader VTFLoader.initLoader xtfFile).2.mipmapCount =
        VTFLoader.initLoader.mipmapCount ∧
     (VTFLoader.ParseHeader VTFLoader.initLoader xtfFile).2.hasAlpha =
        VTFLoader.initLoader.hasAlpha ∧
     (VTFLoader.ParseHeader VTFLoader.initLoader xtfFile).2.format =
        VTFLoader.initLoader.format ∧
     (VTFLoader.ParseHeader VTFLoader.initLoader xtfFile).2.rgbaData =
        VTFLoader.initLoader.rgbaData ∧
     (((VTFLoader.ParseHeader VTFLoader.initLoader xtfFile).2.versionMajor =
          VTFLoader.initLoader.versionMajor ∧
       (VTFLoader.ParseHeader VTFLoader.initLoader xtfFile).2.versionMinor =
          VTFLoader.initLoader.versionMinor) ∨
      ((VTFLoader.ParseHeader VTFLoader.initLoader xtfFile).2.versionMajor =
          VTF.u32toInt (VTF.readU32 xtfFile 4) ∧
       (VTFLoader.ParseHeader VTFLoader.initLoader xtfFile).2.versionMinor =
          VTF.u32toInt (VTF.readU32 xtfFile 8))) ∧
     VTFLoader.LoadFromMemory VTFLoader.initLoader xtfFile =
        VTFLoader.ParseHeader VTFLoader.initLoader xtfFile) :=
  ⟨by decide, c9_failed_parse_preserves_state VTFLoader.initLoader xtfFile (by decide)⟩

/-! ## Claim C7: unsupported pixel format on decode -/

theorem convertToRGBA_default (src : List Nat) (w h : Nat) (fmt : Int)
    (hf : VTFLoader.convertRecognizes fmt = false) :
    VTFLoader.ConvertToRGBA src w h fmt =
      ((List.replicate (w * h) [255, 0, 255, 255]).flatten,
       some ("Unsupported image format: " ++ toString fmt)) := by
  simp only [VTFLoader.convertRecognizes, decide_eq_false_iff_not] at hf
  push_neg at hf
  obtain ⟨h0, h1, h2, h3, h11, h12, h16, h13, h20, h14, h15, h5, h6, h8⟩ := hf
  rw [← range_flatMap_const]
  simp [VTFLoader.ConvertToRGBA, h0, h1, h2, h3, h11, h12, h16, h13, h20, h14,
    h15, h5, h6, h8]

/-- C7 counterexample: a decode whose header names format 99 can still
fail outright — with `headerSize` declared as 81 on an 80-byte input the
truncation check fires first, so the decoder does *not* always return a
magenta buffer without failing. -/
theorem c7_truncation_counterexample :
    (VTFLoader.ParseHeader VTFLoader.initLoader fmt99TruncFile).1 = true ∧
    VTFLoader.convertRecognizes
      ((VTFLoader.ParseHeader VTFLoader.initLoader fmt99TruncFile).2.format) = false ∧
    (VTFLoader.LoadFromMemory VTFLoader.initLoader fmt99TruncFile).1 = false ∧
    (VTFLoader.LoadFromMemory VTFLoader.initLoader fmt99TruncFile).2.error =
      "File truncated - not enough image data" := by
  decide

/-- C7 (amended): provided the body-size (truncation) check passes, a
decode whose header names a pixel format the converter does not
recognise still succeeds, returns a full `width*height*4` buffer of
opaque magenta `(255, 0, 255, 255)` pixels, and records the
unsupported-pixel-format error message. -/
theorem c7_unsupported_format_soft_error (s s2 : VTFLoader.LoaderState)
    (data : List Nat) (hp : VTFLoader.ParseHeader s data = (true, s2))
    (hf : VTFLoader.convertRecognizes s2.format = false)
    (hsz : VTFLoader.dataOffset data +
      VTFLoader.totalMipBytes s2.width s2.height s2.format s2.frameCount
        s2.mipmapCount ≤ data.length) :
    (VTFLoader.LoadFromMemory s data).1 = true ∧
    (VTFLoader.LoadFromMemory s data).2.rgbaData =
      (List.replicate (s2.width * s2.height) [255, 0, 255, 255]).flatten ∧
    (VTFLoader.LoadFromMemory s data).2.rgbaData.length =
      s2.width * s2.height * 4 ∧
    (VTFLoader.LoadFromMemory s data).2.error =
      "Unsupported image format: " ++ toString s2.format := by
  have hload : VTFLoader.LoadFromMemory s data = VTFLoader.DecodeImage s2 data := by
    simp [VTFLoader.LoadFromMemory, hp]
  rw [hload]
  simp only [VTFLoader.DecodeImage]
  rw [if_neg (by omega)]
  rw [convertToRGBA_default _ _ _ _ hf]
  refine ⟨rfl, rfl, ?_, rfl⟩
  simp [List.length_flatten, Function.comp]

/-- C7 witness: the amended theorem applied to an 80-byte format-99 file
whose (empty) body passes the truncation check. -/
theorem c7_unsupported_format_soft_error_witness :
    (VTFLoader.ParseHeader VTFLoader.initLoader fmt99File =
      (true, (VTFLoader.ParseHeader VTFLoader.initLoader fmt99File).2) ∧
     VTFLoader.convertRecognizes
       ((VTFLoader.ParseHeader VTFLoader.initLoader fmt99File).2.format) = false ∧
     VTFLoader.dataOffset fmt99File +
       VTFLoader.totalMipBytes
         (VTFLoader.ParseHeader VTFLoader.initLoader fmt99File).2.width
         (VTFLoader.ParseHeader VTFLoader.initLoader fmt99File).2.height
         (VTFLoader.ParseHeader VTFLoader.initLoader fmt99File).2.format
         (VTFLoader.ParseHeader VTFLoader.initLoader fmt99File).2.frameCount
         (VTFLoader.ParseHeader VTFLoader.initLoader fmt99File).2.mipmapCount ≤
       fmt99File.length) ∧
    ((VTFLoader.LoadFromMemory VTFLoader.initLoader fmt99File).1 = true ∧
     (VTFLoader.LoadFromMemory VTFLoader.initLoader fmt99File).2.rgbaData =
       (List.replicate
         ((VTFLoader.ParseHeader VTFLoader.initLoader fmt99File).2.width *
          (VTFLoader.ParseHeader VTFLoader.initLoader fmt99File).2.height)
         [255, 0, 255, 255]).flatten ∧
     (VTFLoader.LoadFromMemory VTFLoader.initLoader fmt99File).2.rgbaData.length =
       (VTFLoader.ParseHeader VTFLoader.initLoader fmt99File).2.width *
         (VTFLoader.ParseHeader VTFLoader.initLoader fmt99File).2.height * 4 ∧
     (VTFLoader.LoadFromMemory VTFLoader.initLoader fmt99File).2.error =
       "Unsupported image format: " ++
         toString (VTFLoader.ParseHeader VTFLoader.initLoader fmt99File).2.format) :=
  ⟨⟨by decide, by decide, by decide⟩,
   c7_unsupported_format_soft_error VTFLoader.initLoader
     (VTFLoader.ParseHeader VTFLoader.initLoader fmt99File).2 fmt99File
     (by decide) (by decide) (by decide)⟩

/-! ## Claim C2: mip-0 offset and truncation check -/

/-- C2 counterexample: the skipped levels of a 16×16 DXT1 body are
claimed to have sizes 8,8,8,8 bytes, but the 8×8 level is a 2×2 grid of
blocks = 32 bytes, so the sizes are 32,8,8,8 and the mip-0 offset for a
headerSize-80 file is 80+56 = 136, not 80+32. -/
theorem c2_skipped_sizes_counterexample :
    ((VTFLoader.levelDims 16 16 4).map fun p =>
      VTF.CalculateImageSize p.1 p.2 13 * 1) = [32, 8, 8, 8] ∧
    VTFLoader.dataOffset dxt16File +
      VTFLoader.skipSmallerBytes 16 16 13 1 4 = 136 ∧
    ¬ (((VTFLoader.levelDims 16 16 4).map fun p =>
      VTF.CalculateImageSize p.1 p.2 13 * 1) = [8, 8, 8, 8]) := by
  decide

/-- C2 (amended): for a validated header, decode fails (with the
truncation error, touching no pixel data) exactly when
`dataOffset + Σ levels CalculateImageSize(levelW, levelH, fmt) * frames`
exceeds the input size, where `dataOffset` is headerSize plus the
optional thumbnail size; on success the decoded buffer is converted from
the bytes at offset `dataOffset + Σ smaller levels size*frames` (the
smaller-level sizes for a 16×16 DXT1 body being 32,8,8,8 — the 8×8
level is 32 bytes, each level min-clamped to one 4×4 block). -/
theorem c2_mip_offset_and_truncation (s s2 : VTFLoader.LoaderState)
    (data : List Nat) (hp : VTFLoader.ParseHeader s data = (true, s2)) :
    ((VTFLoader.DecodeImage s2 data).1 = false ↔
      VTFLoader.dataOffset data +
        ((VTFLoader.allLevelDims s2.width s2.height s2.mipmapCount).map fun p =>
          VTF.CalculateImageSize p.1 p.2 s2.format * s2.frameCount).sum >
        data.length) ∧
    ((VTFLoader.DecodeImage s2 data).1 = false →
      (VTFLoader.DecodeImage s2 data).2.error =
        "File truncated - not enough image data" ∧
      (VTFLoader.DecodeImage s2 data).2.rgbaData = s2.rgbaData) ∧
    ((VTFLoader.DecodeImage s2 data).1 = true →
      (VTFLoader.DecodeImage s2 data).2.rgbaData =
        (VTFLoader.ConvertToRGBA
          (data.drop (VTFLoader.dataOffset data +
            ((VTFLoader.levelDims s2.width s2.height (s2.mipmapCount - 1)).map
              fun p => VTF.CalculateImageSize p.1 p.2 s2.format *
                s2.frameCount).sum))
          s2.width s2.height s2.format).1) ∧
    ((VTFLoader.levelDims 16 16 4).map fun p =>
      VTF.CalculateImageSize p.1 p.2 13 * 1) = [32, 8, 8, 8] := by
  refine ⟨?_, ?_, ?_, by decide⟩
  · simp only [VTFLoader.DecodeImage, totalMipBytes_eq_sum]
    split
    next hc => exact iff_of_true rfl hc
    next hc => exact iff_of_false (by simp) hc
  · simp only [VTFLoader.DecodeImage]
    split
    next hc => intro _; exact ⟨rfl, rfl⟩
    next hc => intro hx; simp at hx
  · simp only [VTFLoader.DecodeImage, skipSmallerBytes_eq_sum]
    split
    next hc => intro hx; simp at hx
    next hc => intro _; rfl

/-- C2 witness: the amended theorem applied to a well-formed 1×1
RGBA8888 file. -/
theorem c2_mip_offset_and_truncation_witness :
    (VTFLoader.ParseHeader VTFLoader.initLoader rgba1File =
      (true, (VTFLoader.ParseHeader VTFLoader.initLoader rgba1File).2)) ∧
    (((VTFLoader.DecodeImage
        (VTFLoader.ParseHeader VTFLoader.initLoader rgba1File).2 rgba1File).1 =
          false ↔
      VTFLoader.dataOffset rgba1File +
        ((VTFLoader.allLevelDims
            (VTFLoader.ParseHeader VTFLoader.initLoader rgba1File).2.width
            (VTFLoader.ParseHeader VTFLoader.initLoader rgba1File).2.height
            (VTFLoader.ParseHeader VTFLoader.initLoader rgba1File).2.mipmapCount).map
          fun p => VTF.CalculateImageSize p.1 p.2
            (VTFLoader.ParseHeader VTFLoader.initLoader rgba1File).2.format *
            (VTFLoader.ParseHeader VTFLoader.initLoader rgba1File).2.frameCount).sum >
        rgba1File.length) ∧
    ((VTFLoader.DecodeImage
        (VTFLoader.ParseHeader VTFLoader.initLoader rgba1File).2 rgba1File).1 =
          false →
      (VTFLoader.DecodeImage
        (VTFLoader.ParseHeader VTFLoader.initLoader rgba1File).2 rgba1File).2.error =
        "File truncated - not enough image data" ∧
      (VTFLoader.DecodeImage
        (VTFLoader.ParseHeader VTFLoader.initLoader rgba1File).2 rgba1File).2.rgbaData =
        (VTFLoader.ParseHeader VTFLoader.initLoader rgba1File).2.rgbaData) ∧
    ((VTFLoader.DecodeImage
        (VTFLoader.ParseHeader VTFLoader.initLoader rgba1File).2 rgba1File).1 =
          true →
      (VTFLoader.DecodeImage
        (VTFLoader.ParseHeader VTFLoader.initLoader rgba1File).2 rgba1File).2.rgbaData =
        (VTFLoader.ConvertToRGBA
          (rgba1File.drop (VTFLoader.dataOffset rgba1File +
            ((VTFLoader.levelDims
                (VTFLoader.ParseHeader VTFLoader.initLoader rgba1File).2.width
                (VTFLoader.ParseHeader VTFLoader.initLoader rgba1File).2.height
                ((VTFLoader.ParseHeader VTFLoader.initLoader rgba1File).2.mipmapCount - 1)).map
              fun p => VTF.CalculateImageSize p.1 p.2
                (VTFLoader.ParseHeader VTFLoader.initLoader rgba1File).2.format *
                (VTFLoader.ParseHeader VTFLoader.initLoader rgba1File).2.frameCount).sum))
          (VTFLoader.ParseHeader VTFLoader.initLoader rgba1File).2.width
          (VTFLoader.ParseHeader VTFLoader.initLoader rgba1File).2.height
          (VTFLoader.ParseHeader VTFLoader.initLoader rgba1File).2.format).1) ∧
    ((VTFLoader.levelDims 16 16 4).map fun p =>
      VTF.CalculateImageSize p.1 p.2 13 * 1) = [32, 8, 8, 8]) :=
  ⟨by decide,
   c2_mip_offset_and_truncation VTFLoader.initLoader
     (VTFLoader.ParseHeader VTFLoader.initLoader rgba1File).2 rgba1File (by decide)⟩

/-! ## Claim C6: DXT5 alpha endpoints -/

/-- C6 counterexample: for a constant-alpha block the encoder writes
equal endpoints (`a0 = a1 = 128`), so the decoder's `alpha0 > alpha1`
test fails and it takes the 6-step + 0/255 branch, not the claimed
always-8-step branch (the palettes differ at entries 6 and 7). -/
theorem c6_equal_alpha_counterexample :
    VTF.byteAt (DXTCompress.CompressDXT5Block blkA128) 0 = 128 ∧
    VTF.byteAt (DXTCompress.CompressDXT5Block blkA128) 1 = 128 ∧
    ¬ (VTF.byteAt (DXTCompress.CompressDXT5Block blkA128) 0 >
       VTF.byteAt (DXTCompress.CompressDXT5Block blkA128) 1) ∧
    DXT.dxt5AlphaPalette (VTF.byteAt (DXTCompress.CompressDXT5Block blkA128) 0)
      (VTF.byteAt (DXTCompress.CompressDXT5Block blkA128) 1) ≠
    DXT.dxt5AlphaPalette8Step
      (VTF.byteAt (DXTCompress.CompressDXT5Block blkA128) 0)
      (VTF.byteAt (DXTCompress.CompressDXT5Block blkA128) 1) := by
  decide

/-- C6 (amended): `CompressDXT5Block` writes the block's exact maximum
alpha to byte 0 and exact minimum alpha to byte 1 (both attained and
bounding all 16 alphas), so `a0 ≥ a1`; the decoder's 8-step
interpolation branch (`a0 > a1`) is taken iff not all 16 alphas are
equal — when they are all equal the endpoints coincide and decoding
takes the 6-step + 0/255 branch instead. -/
theorem c6_dxt5_alpha_endpoints (block : List Nat) (hb : ∀ x ∈ block, x < 256) :
    VTF.byteAt (DXTCompress.CompressDXT5Block block) 0 =
      DXTCompress.maxAlpha block ∧
    VTF.byteAt (DXTCompress.CompressDXT5Block block) 1 =
      DXTCompress.minAlpha block ∧
    DXTCompress.maxAlpha block ∈ DXTCompress.blockAlphas block ∧
    DXTCompress.minAlpha block ∈ DXTCompress.blockAlphas block ∧
    (∀ x ∈ DXTCompress.blockAlphas block,
      DXTCompress.minAlpha block ≤ x ∧ x ≤ DXTCompress.maxAlpha block) ∧
    DXTCompress.minAlpha block ≤ DXTCompress.maxAlpha block ∧
    (DXTCompress.maxAlpha block > DXTCompress.minAlpha block ↔
      ¬(∀ x ∈ DXTCompress.blockAlphas block,
        ∀ y ∈ DXTCompress.blockAlphas block, x = y)) ∧
    (DXTCompress.maxAlpha block > DXTCompress.minAlpha block →
      DXT.dxt5AlphaPalette (VTF.byteAt (DXTCompress.CompressDXT5Block block) 0)
          (VTF.byteAt (DXTCompress.CompressDXT5Block block) 1) =
        DXT.dxt5AlphaPalette8Step (DXTCompress.maxAlpha block)
          (DXTCompress.minAlpha block)) ∧
    (DXTCompress.maxAlpha block = DXTCompress.minAlpha block →
      ¬(VTF.byteAt (DXTCompress.CompressDXT5Block block) 0 >
        VTF.byteAt (DXTCompress.CompressDXT5Block block) 1)) := by
  have e0 : VTF.byteAt (DXTCompress.CompressDXT5Block block) 0 =
      DXTCompress.maxAlpha block := by
    simp [DXTCompress.CompressDXT5Block, VTF.byteAt]
  have e1 : VTF.byteAt (DXTCompress.CompressDXT5Block block) 1 =
      DXTCompress.minAlpha block := by
    simp [DXTCompress.CompressDXT5Block, VTF.byteAt]
  have ha0 : VTF.byteAt block 3 ∈ DXTCompress.blockAlphas block := by
    have : (3 : Nat) = 0 * 4 + 3 := by norm_num
    rw [this]
    exact List.mem_map_of_mem _ (List.mem_range.mpr (by norm_num))
  have hub : ∀ x ∈ DXTCompress.blockAlphas block,
      x ≤ DXTCompress.maxAlpha block :=
    fun x hx => le_foldl_max_mem _ 0 x hx
  have hlb : ∀ x ∈ DXTCompress.blockAlphas block,
      DXTCompress.minAlpha block ≤ x :=
    fun x hx => foldl_min_le_mem _ 255 x hx
  have halpha255 : ∀ x ∈ DXTCompress.blockAlphas block, x < 256 := by
    intro x hx
    obtain ⟨i, _, rfl⟩ := List.mem_map.mp hx
    exact byteAt_lt_256 hb _
  have hmaxdef : DXTCompress.maxAlpha block =
      (DXTCompress.blockAlphas block).foldl max 0 := rfl
  have hmindef : DXTCompress.minAlpha block =
      (DXTCompress.blockAlphas block).foldl min 255 := rfl
  have hmaxmem : DXTCompress.maxAlpha block ∈ DXTCompress.blockAlphas block := by
    rcases List.mem_cons.mp (foldl_max_mem_cons (DXTCompress.blockAlphas block) 0)
      with h1 | h1
    · have hle := hub _ ha0
      rw [hmaxdef, h1] at hle ⊢
      have h0 : VTF.byteAt block 3 = 0 := by omega
      rw [← h0]
      exact ha0
    · rw [hmaxdef]
      exact h1
  have hminmem : DXTCompress.minAlpha block ∈ DXTCompress.blockAlphas block := by
    rcases List.mem_cons.mp (foldl_min_mem_cons (DXTCompress.blockAlphas block) 255)
      with h1 | h1
    · have hge := hlb _ ha0
      have hlt := halpha255 _ ha0
      rw [hmindef, h1] at hge ⊢
      have h255 : VTF.byteAt block 3 = 255 := by omega
      rw [← h255]
      exact ha0
    · rw [hmindef]
      exact h1
  have hmm : DXTCompress.minAlpha block ≤ DXTCompress.maxAlpha block :=
    le_trans (hlb _ ha0) (hub _ ha0)
  refine ⟨e0, e1, hmaxmem, hminmem, fun x hx => ⟨hlb x hx, hub x hx⟩, hmm, ?_, ?_, ?_⟩
  · constructor
    · intro hgt hall
      have := hall _ hmaxmem _ hminmem
      omega
    · intro hne
      rcases Nat.lt_or_ge (DXTCompress.minAlpha block) (DXTCompress.maxAlpha block)
        with h | h
      · exact h
      · exfalso
        apply hne
        intro x hx y hy
        have hx1 := hlb x hx; have hx2 := hub x hx
        have hy1 := hlb y hy; have hy2 := hub y hy
        omega
  · intro hgt
    rw [e0, e1, DXT.dxt5AlphaPalette, if_pos hgt]
    rfl
  · intro heq
    rw [e0, e1]
    omega

/-- C6 witness: the amended theorem applied to a block with varying
alphas. -/
theorem c6_dxt5_alpha_endpoints_witness :
    (∀ x ∈ blkAVar, x < 256) ∧
    (VTF.byteAt (DXTCompress.CompressDXT5Block blkAVar) 0 =
      DXTCompress.maxAlpha blkAVar ∧
    VTF.byteAt (DXTCompress.CompressDXT5Block blkAVar) 1 =
      DXTCompress.minAlpha blkAVar ∧
    DXTCompress.maxAlpha blkAVar ∈ DXTCompress.blockAlphas blkAVar ∧
    DXTCompress.minAlpha blkAVar ∈ DXTCompress.blockAlphas blkAVar ∧
    (∀ x ∈ DXTCompress.blockAlphas blkAVar,
      DXTCompress.minAlpha blkAVar ≤ x ∧ x ≤ DXTCompress.maxAlpha blkAVar) ∧
    DXTCompress.minAlpha blkAVar ≤ DXTCompress.maxAlpha blkAVar ∧
    (DXTCompress.maxAlpha blkAVar > DXTCompress.minAlpha blkAVar ↔
      ¬(∀ x ∈ DXTCompress.blockAlphas blkAVar,
        ∀ y ∈ DXTCompress.blockAlphas blkAVar, x = y)) ∧
    (DXTCompress.maxAlpha blkAVar > DXTCompress.minAlpha blkAVar →
      DXT.dxt5AlphaPalette (VTF.byteAt (DXTCompress.CompressDXT5Block blkAVar) 0)
          (VTF.byteAt (DXTCompress.CompressDXT5Block blkAVar) 1) =
        DXT.dxt5AlphaPalette8Step (DXTCompress.maxAlpha blkAVar)
          (DXTCompress.minAlpha blkAVar)) ∧
    (DXTCompress.maxAlpha blkAVar = DXTCompress.minAlpha blkAVar →
      ¬(VTF.byteAt (DXTCompress.CompressDXT5Block blkAVar) 0 >
        VTF.byteAt (DXTCompress.CompressDXT5Block blkAVar) 1))) :=
  ⟨by decide, c6_dxt5_alpha_endpoints blkAVar (by decide)⟩

/-! ## Claim C5: DXT1 round-trip error -/

theorem lor_le_add (a : Nat) : ∀ b, a ||| b ≤ a + b := by
  induction a using Nat.binaryRec with
  | z => intro b; simp
  | f ba m ih =>
    intro b
    induction b using Nat.binaryRec with
    | z => simp
    | f bb n _ =>
      rw [Nat.lor_bit]
      have h := ih n
      simp only [Nat.bit_val]
      cases ba <;> cases bb <;> simp <;> omega

theorem lor_eq_add_of_and_eq_zero (a : Nat) : ∀ b, a &&& b = 0 → a ||| b = a + b := by
  induction a using Nat.binaryRec with
  | z => intro b _; simp
  | f ba m ih =>
    intro b
    induction b using Nat.binaryRec with
    | z => intro _; simp
    | f bb n _ =>
      intro h
      rw [Nat.land_bit] at h
      rw [Nat.lor_bit]
      have h2 : m &&& n = 0 ∧ (ba && bb) = false := by
        cases hx : (ba && bb) <;> simp [hx, Nat.bit_val] at h <;> simp [h]
      have h3 := ih n h2.1
      simp only [Nat.bit_val, h3, h2.2]
      cases ba <;> cases bb <;> simp at h2 ⊢ <;> omega

theorem and_eq_zero_of_dvd_of_lt {k x y : Nat} (hx : 2 ^ k ∣ x) (hy : y < 2 ^ k) :
    x &&& y = 0 := by
  apply Nat.eq_of_testBit_eq
  intro i
  rw [Nat.testBit_and, Nat.zero_testBit]
  rcases lt_or_ge i k with h | h
  · have hb : x.testBit i = false := by
      obtain ⟨m, rfl⟩ := hx
      rw [Nat.testBit_to_div_mod]
      have hsplit : (2 : Nat) ^ k = 2 ^ i * 2 ^ (k - i) := by
        rw [← pow_add]; congr 1; omega
      have hdiv : 2 ^ k * m / 2 ^ i = 2 ^ (k - i) * m := by
        rw [hsplit, Nat.mul_assoc,
          Nat.mul_div_cancel_left _ (Nat.pos_pow_of_pos i (by norm_num))]
      rw [hdiv]
      have hdvd : (2 : Nat) ∣ 2 ^ (k - i) * m := by
        apply Dvd.dvd.mul_right
        exact dvd_pow_self 2 (by omega)
      simp
      omega
    simp [hb]
  · have hb : y.testBit i = false := by
      apply Nat.testBit_lt_two_pow
      exact lt_of_lt_of_le hy (Nat.pow_le_pow_right (by norm_num) h)
    simp [hb]

theorem pack565_lt (r g b : Nat) (hr : r < 256) (hg : g < 256) (hb : b < 256) :
    DXTCompress.pack565 r g b < 65536 := by
  have h1 : (r >>> 3) <<< 11 < 65536 := by
    rw [Nat.shiftRight_eq_div_pow, Nat.shiftLeft_eq]
    norm_num
    omega
  have h2 : (g >>> 2) <<< 5 < 65536 := by
    rw [Nat.shiftRight_eq_div_pow, Nat.shiftLeft_eq]
    norm_num
    omega
  have h3 : b >>> 3 < 65536 := by
    rw [Nat.shiftRight_eq_div_pow]
    omega
  have := Nat.or_lt_two_pow (n := 16) (by simpa using h2) (by simpa using h3)
  have := Nat.or_lt_two_pow (n := 16) (by simpa using h1) this
  simpa [DXTCompress.pack565, Nat.lor_assoc] using this

/-- The 565 word packs its three fields into disjoint bit ranges, so
`pack565 r g b` is the sum of its three shifted fields. -/
theorem pack565_eq_add (r g b : Nat) (hr : r < 256) (hg : g < 256) (hb : b < 256) :
    DXTCompress.pack565 r g b = (r >>> 3) * 2048 + (g >>> 2) * 32 + (b >>> 3) := by
  have hr5 : r >>> 3 < 32 := by rw [Nat.shiftRight_eq_div_pow]; omega
  have hg6 : g >>> 2 < 64 := by rw [Nat.shiftRight_eq_div_pow]; omega
  have hb5 : b >>> 3 < 32 := by rw [Nat.shiftRight_eq_div_pow]; omega
  have d1 : (g >>> 2) <<< 5 &&& (b >>> 3) = 0 := by
    apply and_eq_zero_of_dvd_of_lt (k := 5)
    · rw [Nat.shiftLeft_eq]
      exact dvd_mul_left _ _
    · rw [show (2 : Nat) ^ 5 = 32 from rfl]
      exact hb5
  have e1 : (g >>> 2) <<< 5 ||| (b >>> 3) = (g >>> 2) * 32 + (b >>> 3) := by
    rw [lor_eq_add_of_and_eq_zero _ _ d1, Nat.shiftLeft_eq]
  have d2 : (r >>> 3) <<< 11 &&& ((g >>> 2) * 32 + (b >>> 3)) = 0 := by
    apply and_eq_zero_of_dvd_of_lt (k := 11)
    · rw [Nat.shiftLeft_eq]
      exact dvd_mul_left _ _
    · rw [show (2 : Nat) ^ 11 = 2048 from rfl]
      omega
  have e2 : (r >>> 3) <<< 11 ||| ((g >>> 2) * 32 + (b >>> 3)) =
      (r >>> 3) * 2048 + ((g >>> 2) * 32 + (b >>> 3)) := by
    rw [lor_eq_add_of_and_eq_zero _ _ d2, Nat.shiftLeft_eq]
  calc DXTCompress.pack565 r g b
      = (r >>> 3) <<< 11 ||| ((g >>> 2) <<< 5 ||| (b >>> 3)) := by
        rw [DXTCompress.pack565, Nat.lor_assoc]
    _ = (r >>> 3) * 2048 + ((g >>> 2) * 32 + (b >>> 3)) := by rw [e1, e2]
    _ = (r >>> 3) * 2048 + (g >>> 2) * 32 + (b >>> 3) := by omega

/-- Decoding a packed 565 word recovers the three truncated fields:
`DecodeColor565 (pack565 r g b)` expands exactly `r >>> 3`, `g >>> 2`
and `b >>> 3`. -/
theorem decode_pack565 (r g b : Nat) (hr : r < 256) (hg : g < 256) (hb : b < 256) :
    DXT.DecodeColor565 (DXTCompress.pack565 r g b) =
      (((r >>> 3) <<< 3) ||| (((r >>> 3) <<< 3) >>> 5),
       ((g >>> 2) <<< 2) ||| (((g >>> 2) <<< 2) >>> 6),
       ((b >>> 3) <<< 3) ||| (((b >>> 3) <<< 3) >>> 5)) := by
  have hr5 : r >>> 3 < 32 := by rw [Nat.shiftRight_eq_div_pow]; omega
  have hg6 : g >>> 2 < 64 := by rw [Nat.shiftRight_eq_div_pow]; omega
  have hb5 : b >>> 3 < 32 := by rw [Nat.shiftRight_eq_div_pow]; omega
  have hw := pack565_eq_add r g b hr hg hb
  have hf1 : DXTCompress.pack565 r g b >>> 11 = r >>> 3 := by
    rw [Nat.shiftRight_eq_div_pow, hw]
    norm_num
    omega
  have hf2 : (DXTCompress.pack565 r g b >>> 5) &&& 63 = g >>> 2 := by
    have h63 : (63 : Nat) = 2 ^ 6 - 1 := by norm_num
    rw [Nat.shiftRight_eq_div_pow, hw, h63, Nat.and_pow_two_sub_one_eq_mod]
    norm_num
    have hdiv : ((r >>> 3) * 2048 + (g >>> 2) * 32 + b >>> 3) / 32 =
        (r >>> 3) * 64 + (g >>> 2) := by omega
    rw [hdiv]
    omega
  have hf3 : DXTCompress.pack565 r g b &&& 31 = b >>> 3 := by
    have h31 : (31 : Nat) = 2 ^ 5 - 1 := by norm_num
    rw [h31, Nat.and_pow_two_sub_one_eq_mod, hw]
    omega
  rw [DXT.DecodeColor565, hf1, hf2, hf3]

set_option maxRecDepth 4000 in
theorem exp5_bound : ∀ t < 256,
    t ≤ (((t >>> 3) <<< 3) ||| (((t >>> 3) <<< 3) >>> 5)) + 7 ∧
    (((t >>> 3) <<< 3) ||| (((t >>> 3) <<< 3) >>> 5)) ≤ t + 7 := by
  decide

set_option maxRecDepth 4000 in
theorem exp6_bound : ∀ t < 256,
    t ≤ (((t >>> 2) <<< 2) ||| (((t >>> 2) <<< 2) >>> 6)) + 7 ∧
    (((t >>> 2) <<< 2) ||| (((t >>> 2) <<< 2) >>> 6)) ≤ t + 7 := by
  decide

theorem chanMax_lt (block : List Nat) (hb : ∀ x ∈ block, x < 256) (c : Nat) :
    DXTCompress.chanMax block c < 256 := by
  rcases List.mem_cons.mp
    (foldl_max_mem_cons ((List.range 16).map fun i => VTF.byteAt block (i * 4 + c)) 0)
    with h1 | h1
  · rw [DXTCompress.chanMax, h1]; norm_num
  · obtain ⟨i, _, hi⟩ := List.mem_map.mp h1
    rw [DXTCompress.chanMax, ← hi]
    exact byteAt_lt_256 hb _

theorem chanMin_lt (block : List Nat) (c : Nat) :
    DXTCompress.chanMin block c < 256 := by
  have := foldl_min_le_init ((List.range 16).map fun i => VTF.byteAt block (i * 4 + c)) 255
  rw [DXTCompress.chanMin]
  omega

theorem chanMin_le_chanMax (block : List Nat) (c : Nat) :
    DXTCompress.chanMin block c ≤ DXTCompress.chanMax block c := by
  have hm : VTF.byteAt block (0 * 4 + c) ∈
      (List.range 16).map fun i => VTF.byteAt block (i * 4 + c) :=
    List.mem_map_of_mem _ (List.mem_range.mpr (by norm_num))
  exact le_trans (foldl_min_le_mem _ 255 _ hm) (le_foldl_max_mem _ 0 _ hm)

theorem chan_bounds (block : List Nat) (p c : Nat) (hp : p < 16) :
    DXTCompress.chanMin block c ≤ VTF.byteAt block (p * 4 + c) ∧
    VTF.byteAt block (p * 4 + c) ≤ DXTCompress.chanMax block c := by
  have hm : VTF.byteAt block (p * 4 + c) ∈
      (List.range 16).map fun i => VTF.byteAt block (i * 4 + c) :=
    List.mem_map_of_mem _ (List.mem_range.mpr hp)
  exact ⟨foldl_min_le_mem _ 255 _ hm, le_foldl_max_mem _ 0 _ hm⟩

theorem compress_words (block : List Nat) (hb : ∀ x ∈ block, x < 256) :
    VTF.readU16 (DXTCompress.CompressDXT1Block block) 0 =
      (if DXTCompress.pack565 (DXTCompress.chanMax block 0)
            (DXTCompress.chanMax block 1) (DXTCompress.chanMax block 2) <
          DXTCompress.pack565 (DXTCompress.chanMin block 0)
            (DXTCompress.chanMin block 1) (DXTCompress.chanMin block 2) then
        DXTCompress.pack565 (DXTCompress.chanMin block 0)
          (DXTCompress.chanMin block 1) (DXTCompress.chanMin block 2)
      else
        DXTCompress.pack565 (DXTCompress.chanMax block 0)
          (DXTCompress.chanMax block 1) (DXTCompress.chanMax block 2)) ∧
    VTF.readU16 (DXTCompress.CompressDXT1Block block) 2 =
      (if DXTCompress.pack565 (DXTCompress.chanMax block 0)
            (DXTCompress.chanMax block 1) (DXTCompress.chanMax block 2) <
          DXTCompress.pack565 (DXTCompress.chanMin block 0)
            (DXTCompress.chanMin block 1) (DXTCompress.chanMin block 2) then
        DXTCompress.pack565 (DXTCompress.chanMax block 0)
          (DXTCompress.chanMax block 1) (DXTCompress.chanMax block 2)
      else
        DXTCompress.pack565 (DXTCompress.chanMin block 0)
          (DXTCompress.chanMin block 1) (DXTCompress.chanMin block 2)) := by
  have hmaxw : DXTCompress.pack565 (DXTCompress.chanMax block 0)
      (DXTCompress.chanMax block 1) (DXTCompress.chanMax block 2) < 65536 :=
    pack565_lt _ _ _ (chanMax_lt block hb 0) (chanMax_lt block hb 1) (chanMax_lt block hb 2)
  have hminw : DXTCompress.pack565 (DXTCompress.chanMin block 0)
      (DXTCompress.chanMin block 1) (DXTCompress.chanMin block 2) < 65536 :=
    pack565_lt _ _ _ (chanMin_lt block 0) (chanMin_lt block 1) (chanMin_lt block 2)
  constructor <;>
    simp only [DXTCompress.CompressDXT1Block, VTF.readU16, VTF.byteAt] <;>
    split <;>
    simp <;>
    omega

theorem dxt1Palette_bound_core (r0 g0 b0 r1 g1 b1 lo0 hi0 lo1 hi1 lo2 hi2 : Nat)
    (hR : lo0 ≤ r0 ∧ r0 ≤ hi0 ∧ lo0 ≤ r1 ∧ r1 ≤ hi0 ∧ r0 < 256 ∧ r1 < 256)
    (hG : lo1 ≤ g0 ∧ g0 ≤ hi1 ∧ lo1 ≤ g1 ∧ g1 ≤ hi1 ∧ g0 < 256 ∧ g1 < 256)
    (hB : lo2 ≤ b0 ∧ b0 ≤ hi2 ∧ lo2 ≤ b1 ∧ b1 ≤ hi2 ∧ b0 < 256 ∧ b1 < 256) :
    ∀ q ∈ DXT.dxt1Palette (DXTCompress.pack565 r0 g0 b0)
        (DXTCompress.pack565 r1 g1 b1) false,
      ∀ c, c < 3 →
        (if c = 0 then lo0 else if c = 1 then lo1 else lo2) ≤ VTF.pxChan q c + 7 ∧
        VTF.pxChan q c ≤ (if c = 0 then hi0 else if c = 1 then hi1 else hi2) + 7 := by
  intro q hq c hc
  have e0 := decode_pack565 r0 g0 b0 hR.2.2.2.2.1 hG.2.2.2.2.1 hB.2.2.2.2.1
  have e1 := decode_pack565 r1 g1 b1 hR.2.2.2.2.2 hG.2.2.2.2.2 hB.2.2.2.2.2
  have E00 := exp5_bound r0 hR.2.2.2.2.1
  have E01 := exp5_bound r1 hR.2.2.2.2.2
  have E10 := exp6_bound g0 hG.2.2.2.2.1
  have E11 := exp6_bound g1 hG.2.2.2.2.2
  have E20 := exp5_bound b0 hB.2.2.2.2.1
  have E21 := exp5_bound b1 hB.2.2.2.2.2
  simp [DXT.dxt1Palette, e0, e1] at hq
  obtain ⟨hR1, hR2, hR3, hR4, _, _⟩ := hR
  obtain ⟨hG1, hG2, hG3, hG4, _, _⟩ := hG
  obtain ⟨hB1, hB2, hB3, hB4, _, _⟩ := hB
  interval_cases c <;>
    rcases hq with rfl | rfl | rfl | rfl <;>
    simp only [VTF.pxChan] <;>
    norm_num <;>
    omega

theorem dxt1_roundtrip_palette_bound (block : List Nat)
    (hb : ∀ x ∈ block, x < 256) :
    ∀ q ∈ DXT.dxt1Palette (VTF.readU16 (DXTCompress.CompressDXT1Block block) 0)
        (VTF.readU16 (DXTCompress.CompressDXT1Block block) 2) false,
      ∀ c, c < 3 →
        DXTCompress.chanMin block c ≤ VTF.pxChan q c + 7 ∧
        VTF.pxChan q c ≤ DXTCompress.chanMax block c + 7 := by
  obtain ⟨hw0, hw2⟩ := compress_words block hb
  rw [hw0, hw2]
  have hRf : DXTCompress.chanMin block 0 ≤ DXTCompress.chanMax block 0 :=
    chanMin_le_chanMax block 0
  have hGf : DXTCompress.chanMin block 1 ≤ DXTCompress.chanMax block 1 :=
    chanMin_le_chanMax block 1
  have hBf : DXTCompress.chanMin block 2 ≤ DXTCompress.chanMax block 2 :=
    chanMin_le_chanMax block 2
  intro q hq c hc
  split at hq
  · have hcore := dxt1Palette_bound_core
      (DXTCompress.chanMin block 0) (DXTCompress.chanMin block 1)
      (DXTCompress.chanMin block 2) (DXTCompress.chanMax block 0)
      (DXTCompress.chanMax block 1) (DXTCompress.chanMax block 2)
      (DXTCompress.chanMin block 0) (DXTCompress.chanMax block 0)
      (DXTCompress.chanMin block 1) (DXTCompress.chanMax block 1)
      (DXTCompress.chanMin block 2) (DXTCompress.chanMax block 2)
      ⟨le_refl _, hRf, hRf, le_refl _, chanMin_lt block 0, chanMax_lt block hb 0⟩
      ⟨le_refl _, hGf, hGf, le_refl _, chanMin_lt block 1, chanMax_lt block hb 1⟩
      ⟨le_refl _, hBf, hBf, le_refl _, chanMin_lt block 2, chanMax_lt block hb 2⟩
      q hq c hc
    interval_cases c <;> simpa using hcore
  · have hcore := dxt1Palette_bound_core
      (DXTCompress.chanMax block 0) (DXTCompress.chanMax block 1)
      (DXTCompress.chanMax block 2) (DXTCompress.chanMin block 0)
      (DXTCompress.chanMin block 1) (DXTCompress.chanMin block 2)
      (DXTCompress.chanMin block 0) (DXTCompress.chanMax block 0)
      (DXTCompress.chanMin block 1) (DXTCompress.chanMax block 1)
      (DXTCompress.chanMin block 2) (DXTCompress.chanMax block 2)
      ⟨hRf, le_refl _, le_refl _, hRf, chanMax_lt block hb 0, chanMin_lt block 0⟩
      ⟨hGf, le_refl _, le_refl _, hGf, chanMax_lt block hb 1, chanMin_lt block 1⟩
      ⟨hBf, le_refl _, le_refl _, hBf, chanMax_lt block hb 2, chanMin_lt block 2⟩
      q hq c hc
    interval_cases c <;> simpa using hcore

set_option maxHeartbeats 1000000 in
theorem dxt1_block_read (src : List Nat) (dst : Nat → Nat) (ha : Bool)
    (p c : Nat) (hp : p < 16) (hc : c < 4) :
    DXT.DecompressDXT1Block src 0 dst 0 16 ha (p * 4 + c) =
      VTF.pxChan ((DXT.dxt1Palette (VTF.readU16 src 0) (VTF.readU16 src 2) ha).getD
        ((VTF.readU32 src 4 >>> (p * 2)) &&& 3) ⟨0, 0, 0, 0⟩) c := by
  interval_cases p <;> interval_cases c <;>
    simp [DXT.DecompressDXT1Block, DXT.blockPixels, VTF.writePx, VTF.writeByte,
      VTF.pxChan, List.foldl]

theorem dxt1Palette_length (c0 c1 : Nat) (ha : Bool) :
    (DXT.dxt1Palette c0 c1 ha).length = 4 := by
  rw [DXT.dxt1Palette]
  split <;> rfl

/-- C5 (amended): for every 4×4 RGBA8 block, compressing with
`CompressDXT1Block` and decompressing with `DecompressDXT1Block` gives,
for every pixel and each RGB channel, an absolute error of at most
`(max - min) + 7` (the block's per-channel range, plus the worst 565
endpoint-quantisation slack); the claimed `(max - min)/3` does not
survive either endpoint quantisation or the shared index selection. -/
theorem c5_dxt1_error_bound (block : List Nat) (hb : ∀ x ∈ block, x < 256)
    (p c : Nat) (hp : p < 16) (hc : c < 3) :
    VTF.byteAt block (p * 4 + c) ≤ dxt1RoundTrip block (p * 4 + c) +
      ((DXTCompress.chanMax block c - DXTCompress.chanMin block c) + 7) ∧
    dxt1RoundTrip block (p * 4 + c) ≤ VTF.byteAt block (p * 4 + c) +
      ((DXTCompress.chanMax block c - DXTCompress.chanMin block c) + 7) := by
  have hread := dxt1_block_read (DXTCompress.CompressDXT1Block block)
    (fun _ => 0) false p c hp (by omega)
  rw [dxt1RoundTrip, hread]
  have hidx : (VTF.readU32 (DXTCompress.CompressDXT1Block block) 4 >>> (p * 2)) &&& 3 <
      (DXT.dxt1Palette (VTF.readU16 (DXTCompress.CompressDXT1Block block) 0)
        (VTF.readU16 (DXTCompress.CompressDXT1Block block) 2) false).length := by
    rw [dxt1Palette_length]
    exact lt_of_le_of_lt Nat.and_le_right (by norm_num)
  have hqmem := getD_mem_of_lt hidx (⟨0, 0, 0, 0⟩ : VTF.Px)
  have hq := dxt1_roundtrip_palette_bound block hb _ hqmem c hc
  have horig := chan_bounds block p c hp
  have hmm := chanMin_le_chanMax block c
  omega

/-- C5 counterexample: the claimed per-channel bound `(max-min)/3` fails
already for the flat block `(7,0,0,255)` (565 truncation decodes red 7
as 0 while max-min = 0), and the non-collinear `blkMix` block has a
green error of 170, exceeding even `(max-min)/3 + 7`. -/
theorem c5_quantization_counterexample :
    VTF.byteAt blkRed7 0 = 7 ∧ dxt1RoundTrip blkRed7 0 = 0 ∧
    DXTCompress.chanMax blkRed7 0 = 7 ∧ DXTCompress.chanMin blkRed7 0 = 7 ∧
    ¬(|(VTF.byteAt blkRed7 0 : Int) - (dxt1RoundTrip blkRed7 0 : Int)| ≤
        ((DXTCompress.chanMax blkRed7 0 : Int) -
          (DXTCompress.chanMin blkRed7 0 : Int)) / 3) ∧
    VTF.byteAt blkMix 1 = 0 ∧ dxt1RoundTrip blkMix 1 = 170 ∧
    DXTCompress.chanMax blkMix 1 = 255 ∧ DXTCompress.chanMin blkMix 1 = 0 ∧
    ¬(|(VTF.byteAt blkMix 1 : Int) - (dxt1RoundTrip blkMix 1 : Int)| ≤
        ((DXTCompress.chanMax blkMix 1 : Int) -
          (DXTCompress.chanMin blkMix 1 : Int)) / 3 + 7) := by
  decide

/-- C5 witness: the amended error bound applied to `blkMix`, pixel 0,
green channel. -/
theorem c5_dxt1_error_bound_witness :
    ((∀ x ∈ blkMix, x < 256) ∧ 0 < 16 ∧ 1 < 3) ∧
    (VTF.byteAt blkMix (0 * 4 + 1) ≤ dxt1RoundTrip blkMix (0 * 4 + 1) +
      ((DXTCompress.chanMax blkMix 1 - DXTCompress.chanMin blkMix 1) + 7) ∧
     dxt1RoundTrip blkMix (0 * 4 + 1) ≤ VTF.byteAt blkMix (0 * 4 + 1) +
      ((DXTCompress.chanMax blkMix 1 - DXTCompress.chanMin blkMix 1) + 7)) :=
  ⟨⟨by decide, by decide, by decide⟩,
   c5_dxt1_error_bound blkMix (by decide) 0 1 (by decide) (by decide)⟩

theorem flatMap_range_length (k s : Nat) (f : Nat → List Nat)
    (hf : ∀ a, (f a).length = s) :
    ((List.range k).flatMap f).length = k * s := by
  rw [List.length_flatMap]
  have : List.map (List.length ∘ f) (List.range k) =
      List.map (Function.const Nat s) (List.range k) := by
    apply List.map_congr_left
    intro a _
    simp [hf a]
  rw [this, List.map_const, List.sum_replicate]
  simp [List.length_range]

theorem downsample_length (src : List Nat) (w h nw nh : Nat) :
    (VTFWriter.downsample src w h nw nh).length = nh * (nw * 4) := by
  rw [VTFWriter.downsample]
  apply flatMap_range_length
  intro y
  apply flatMap_range_length
  intro x
  simp

theorem flatMap_range_getD (f : Nat → List Nat) (s : Nat)
    (hf : ∀ a, (f a).length = s) :
    ∀ (k i j : Nat), i < k → j < s → ∀ d,
      ((List.range k).flatMap f).getD (i * s + j) d = (f i).getD j d := by
  intro k
  induction k generalizing f with
  | zero => intro i j hi; omega
  | succ m ih =>
    intro i j hi hj d
    rw [List.range_succ_eq_map, List.flatMap_cons, List.flatMap_map]
    cases i with
    | zero =>
      simp only [Nat.zero_mul, Nat.zero_add]
      rw [List.getD_append _ _ _ _ (by rw [hf 0]; exact hj)]
    | succ i' =>
      rw [List.getD_append_right _ _ _ _ (by rw [hf 0]; nlinarith)]
      rw [hf 0]
      have harith : (i' + 1) * s + j - s = i' * s + j := by
        have : (i' + 1) * s = i' * s + s := by ring
        omega
      rw [harith]
      exact ih (fun a => f (a + 1)) (fun a => hf (a + 1)) i' j (by omega) hj d

theorem downsample_getD (src : List Nat) (w h nw nh x y c : Nat)
    (hx : x < nw) (hy : y < nh) (hc : c < 4) :
    (VTFWriter.downsample src w h nw nh).getD ((y * nw + x) * 4 + c) 0 =
      VTFWriter.mipPixel src w h x y c := by
  rw [VTFWriter.downsample]
  have harith : (y * nw + x) * 4 + c = y * (nw * 4) + (x * 4 + c) := by ring
  rw [harith]
  rw [flatMap_range_getD _ (nw * 4)
    (fun a => flatMap_range_length nw 4 _ (fun b => by simp)) nh y (x * 4 + c) hy
    (by omega) 0]
  rw [flatMap_range_getD _ 4 (fun a => by simp) nw x c hx hc 0]
  simp [List.getElem?_range, hc]

theorem halveDim_eq (w : Nat) : VTF.halveDim w = max 1 (w / 2) := by
  rw [VTF.halveDim]
  split <;> omega

theorem halveDim_pos (w : Nat) : 1 ≤ VTF.halveDim w := by
  rw [VTF.halveDim]; split <;> omega

theorem halveDim_measure (w h : Nat) (hcond : w > 1 ∨ h > 1) :
    max (VTF.halveDim w) 1 + max (VTF.halveDim h) 1 < max w 1 + max h 1 := by
  rw [halveDim_eq, halveDim_eq]
  omega

theorem buildMips_level_lengths :
    ∀ (n w h : Nat) (src : List Nat), max w 1 + max h 1 = n →
      src.length = w * h * 4 →
      (VTFWriter.buildMips src w h).length = (VTFWriter.mipDims w h).length ∧
      (∀ i, ((VTFWriter.buildMips src w h).getD i []).length =
        ((VTFWriter.mipDims w h).getD i (0, 0)).1 *
          ((VTFWriter.mipDims w h).getD i (0, 0)).2 * 4) := by
  intro n
  induction n using Nat.strong_induction_on with
  | _ n ih =>
    intro w h src hn hlen
    rw [VTFWriter.buildMips, VTFWriter.mipDims]
    by_cases hcond : w > 1 ∨ h > 1
    · rw [if_pos hcond, if_pos hcond]
      have hdn : (VTFWriter.downsample src w h (VTF.halveDim w) (VTF.halveDim h)).length =
          VTF.halveDim w * VTF.halveDim h * 4 := by
        rw [downsample_length]; ring
      have hrec := ih _ (hn ▸ halveDim_measure w h hcond) (VTF.halveDim w)
        (VTF.halveDim h) _ rfl hdn
      refine ⟨by simp [hrec.1], ?_⟩
      intro i
      cases i with
      | zero => simpa using hlen
      | succ i' => simpa using hrec.2 i'
    · rw [if_neg hcond, if_neg hcond]
      refine ⟨rfl, ?_⟩
      intro i
      cases i with
      | zero => simpa using hlen
      | succ i' => simp

theorem mipDims_getD_zero (w h : Nat) :
    (VTFWriter.mipDims w h).getD 0 (0, 0) = (w, h) := by
  rw [VTFWriter.mipDims]
  rfl

theorem mipDims_succ :
    ∀ (n w h : Nat), max w 1 + max h 1 = n →
      ∀ i, i + 1 < (VTFWriter.mipDims w h).length →
        (VTFWriter.mipDims w h).getD (i + 1) (0, 0) =
          (VTF.halveDim ((VTFWriter.mipDims w h).getD i (0, 0)).1,
           VTF.halveDim ((VTFWriter.mipDims w h).getD i (0, 0)).2) := by
  intro n
  induction n using Nat.strong_induction_on with
  | _ n ih =>
    intro w h hn i hi
    rw [VTFWriter.mipDims] at hi ⊢
    by_cases hcond : w > 1 ∨ h > 1
    · rw [if_pos hcond] at hi ⊢
      cases i with
      | zero =>
        simp only [List.getD_cons_succ, List.getD_cons_zero]
        rw [VTFWriter.mipDims]
        rfl
      | succ i' =>
        simp only [List.getD_cons_succ]
        exact ih _ (hn ▸ halveDim_measure w h hcond) _ _ rfl i'
          (by simpa using hi)
    · rw [if_neg hcond] at hi
      simp at hi

theorem mipDims_last :
    ∀ (n w h : Nat), max w 1 + max h 1 = n → 1 ≤ w → 1 ≤ h →
      (VTFWriter.mipDims w h).getD ((VTFWriter.mipDims w h).length - 1) (0, 0) =
        (1, 1) := by
  intro n
  induction n using Nat.strong_induction_on with
  | _ n ih =>
    intro w h hn hw hh
    rw [VTFWriter.mipDims]
    by_cases hcond : w > 1 ∨ h > 1
    · rw [if_pos hcond]
      have hrec := ih _ (hn ▸ halveDim_measure w h hcond) _ _ rfl
        (halveDim_pos w) (halveDim_pos h)
      have hne : 1 ≤ (VTFWriter.mipDims (VTF.halveDim w) (VTF.halveDim h)).length := by
        rw [VTFWriter.mipDims]
        simp
      simp only [List.length_cons]
      have harith : (VTFWriter.mipDims (VTF.halveDim w) (VTF.halveDim h)).length + 1 - 1 =
          ((VTFWriter.mipDims (VTF.halveDim w) (VTF.halveDim h)).length - 1) + 1 := by
        omega
      rw [harith, List.getD_cons_succ]
      exact hrec
    · rw [if_neg hcond]
      have hw1 : w = 1 := by omega
      have hh1 : h = 1 := by omega
      subst hw1; subst hh1
      rfl

theorem buildMips_succ :
    ∀ (n w h : Nat) (src : List Nat), max w 1 + max h 1 = n →
      ∀ i, i + 1 < (VTFWriter.buildMips src w h).length →
        (VTFWriter.buildMips src w h).getD (i + 1) [] =
          VTFWriter.downsample ((VTFWriter.buildMips src w h).getD i [])
            ((VTFWriter.mipDims w h).getD i (0, 0)).1
            ((VTFWriter.mipDims w h).getD i (0, 0)).2
            ((VTFWriter.mipDims w h).getD (i + 1) (0, 0)).1
            ((VTFWriter.mipDims w h).getD (i + 1) (0, 0)).2 := by
  intro n
  induction n using Nat.strong_induction_on with
  | _ n ih =>
    intro w h src hn i hi
    rw [VTFWriter.buildMips] at hi ⊢
    rw [VTFWriter.mipDims]
    by_cases hcond : w > 1 ∨ h > 1
    · rw [if_pos hcond] at hi ⊢
      rw [if_pos hcond]
      cases i with
      | zero =>
        simp only [List.getD_cons_succ, List.getD_cons_zero]
        rw [VTFWriter.buildMips, VTFWriter.mipDims]
        rfl
      | succ i' =>
        simp only [List.getD_cons_succ]
        exact ih _ (hn ▸ halveDim_measure w h hcond) _ _ _ rfl i'
          (by simpa using hi)
    · rw [if_neg hcond] at hi
      simp at hi

theorem mipDims_pos :
    ∀ (n w h : Nat), max w 1 + max h 1 = n → 1 ≤ w → 1 ≤ h →
      ∀ i, i < (VTFWriter.mipDims w h).length →
        1 ≤ ((VTFWriter.mipDims w h).getD i (0, 0)).1 ∧
        1 ≤ ((VTFWriter.mipDims w h).getD i (0, 0)).2 := by
  intro n
  induction n using Nat.strong_induction_on with
  | _ n ih =>
    intro w h hn hw hh i hi
    rw [VTFWriter.mipDims] at hi ⊢
    by_cases hcond : w > 1 ∨ h > 1
    · rw [if_pos hcond] at hi ⊢
      cases i with
      | zero => exact ⟨hw, hh⟩
      | succ i' =>
        simp only [List.getD_cons_succ]
        exact ih _ (hn ▸ halveDim_measure w h hcond) _ _ rfl
          (halveDim_pos w) (halveDim_pos h) i' (by simpa using hi)
    · rw [if_neg hcond]
      cases i with
      | zero => exact ⟨hw, hh⟩
      | succ i' =>
        rw [if_neg hcond] at hi
        simp at hi

theorem footprint_count_cases (w h x y : Nat) (hw : 1 ≤ w) (hh : 1 ≤ h)
    (hx : x < VTF.halveDim w) (hy : y < VTF.halveDim h) :
    VTFWriter.mipFootprintCount w h x y = 1 ∨
    VTFWriter.mipFootprintCount w h x y = 2 ∨
    VTFWriter.mipFootprintCount w h x y = 4 := by
  rw [halveDim_eq] at hx hy
  have hx0 : x * 2 < w := by omega
  have hy0 : y * 2 < h := by omega
  by_cases h1 : y * 2 + 1 < h <;> by_cases h2 : x * 2 + 1 < w <;>
    simp [VTFWriter.mipFootprintCount, List.filter, h1, h2, hx0, hy0]

/-- C8: with mipmap generation enabled, the pyramid's level 0 is the
unmodified source; there is one level per entry of the dimension chain,
which starts at `(width, height)`, halves each axis with
`max 1 (floor (d / 2))`, and ends at `(1, 1)`; each level's buffer has
`w*h*4` bytes; each pixel channel of a level is the truncating average
`mipPixel` of the in-bounds 2×2 footprint (1, 2 or 4 source pixels) of
the previous level; and a 6×6 image yields exactly the levels
6×6, 3×3, 1×1. -/
theorem c8_mip_pyramid (wr : VTFWriter.WriterState)
    (hgen : wr.generateMipmaps = true) (hw : 1 ≤ wr.width) (hh : 1 ≤ wr.height)
    (hlen : wr.sourceRGBA.length = wr.width * wr.height * 4) :
    VTFWriter.GenerateMipmaps wr =
      VTFWriter.buildMips wr.sourceRGBA wr.width wr.height ∧
    (VTFWriter.GenerateMipmaps wr).getD 0 [] = wr.sourceRGBA ∧
    (VTFWriter.GenerateMipmaps wr).length =
      (VTFWriter.mipDims wr.width wr.height).length ∧
    (VTFWriter.mipDims wr.width wr.height).getD 0 (0, 0) =
      (wr.width, wr.height) ∧
    (∀ i, i + 1 < (VTFWriter.mipDims wr.width wr.height).length →
      (VTFWriter.mipDims wr.width wr.height).getD (i + 1) (0, 0) =
        (max 1 (((VTFWriter.mipDims wr.width wr.height).getD i (0, 0)).1 / 2),
         max 1 (((VTFWriter.mipDims wr.width wr.height).getD i (0, 0)).2 / 2))) ∧
    (VTFWriter.mipDims wr.width wr.height).getD
      ((VTFWriter.mipDims wr.width wr.height).length - 1) (0, 0) = (1, 1) ∧
    (∀ i, ((VTFWriter.GenerateMipmaps wr).getD i []).length =
      ((VTFWriter.mipDims wr.width wr.height).getD i (0, 0)).1 *
        ((VTFWriter.mipDims wr.width wr.height).getD i (0, 0)).2 * 4) ∧
    (∀ i x y c, i + 1 < (VTFWriter.mipDims wr.width wr.height).length →
      x < ((VTFWriter.mipDims wr.width wr.height).getD (i + 1) (0, 0)).1 →
      y < ((VTFWriter.mipDims wr.width wr.height).getD (i + 1) (0, 0)).2 →
      c < 4 →
      ((VTFWriter.GenerateMipmaps wr).getD (i + 1) []).getD
          ((y * ((VTFWriter.mipDims wr.width wr.height).getD (i + 1) (0, 0)).1 + x) *
            4 + c) 0 =
        VTFWriter.mipPixel ((VTFWriter.GenerateMipmaps wr).getD i [])
          ((VTFWriter.mipDims wr.width wr.height).getD i (0, 0)).1
          ((VTFWriter.mipDims wr.width wr.height).getD i (0, 0)).2 x y c) ∧
    (∀ i x y, i + 1 < (VTFWriter.mipDims wr.width wr.height).length →
      x < ((VTFWriter.mipDims wr.width wr.height).getD (i + 1) (0, 0)).1 →
      y < ((VTFWriter.mipDims wr.width wr.height).getD (i + 1) (0, 0)).2 →
      VTFWriter.mipFootprintCount
          ((VTFWriter.mipDims wr.width wr.height).getD i (0, 0)).1
          ((VTFWriter.mipDims wr.width wr.height).getD i (0, 0)).2 x y = 1 ∨
        VTFWriter.mipFootprintCount
          ((VTFWriter.mipDims wr.width wr.height).getD i (0, 0)).1
          ((VTFWriter.mipDims wr.width wr.height).getD i (0, 0)).2 x y = 2 ∨
        VTFWriter.mipFootprintCount
          ((VTFWriter.mipDims wr.width wr.height).getD i (0, 0)).1
          ((VTFWriter.mipDims wr.width wr.height).getD i (0, 0)).2 x y = 4) ∧
    VTFWriter.mipDims 6 6 = [(6, 6), (3, 3), (1, 1)] := by
  have hgm : VTFWriter.GenerateMipmaps wr =
      VTFWriter.buildMips wr.sourceRGBA wr.width wr.height := by
    rw [VTFWriter.GenerateMipmaps, hgen]
    simp
  have hll := buildMips_level_lengths _ wr.width wr.height wr.sourceRGBA rfl hlen
  have hsucc := fun i hi => mipDims_succ _ wr.width wr.height rfl i hi
  have hpos := fun i hi => mipDims_pos _ wr.width wr.height rfl hw hh i hi
  refine ⟨hgm, ?_, ?_, mipDims_getD_zero _ _, ?_, ?_, ?_, ?_, ?_, ?_⟩
  · rw [hgm, VTFWriter.buildMips]
    rfl
  · rw [hgm]
    exact hll.1
  · intro i hi
    rw [hsucc i hi, halveDim_eq, halveDim_eq]
  · exact mipDims_last _ wr.width wr.height rfl hw hh
  · intro i
    rw [hgm]
    exact hll.2 i
  · intro i x y c hi hx hy hc
    rw [hgm]
    rw [buildMips_succ _ wr.width wr.height wr.sourceRGBA rfl i
      (by rw [← hgm, hgm, hll.1]; exact hi)]
    exact downsample_getD _ _ _ _ _ _ _ _ hx hy hc
  · intro i x y hi hx hy
    rw [hsucc i hi] at hx hy
    exact footprint_count_cases _ _ _ _ (hpos i (by omega)).1 (hpos i (by omega)).2
      hx hy
  · simp [VTFWriter.mipDims, VTF.halveDim]

/-- C8 witness: the pyramid theorem applied to a concrete 2×1 writer. -/
theorem c8_mip_pyramid_witness :
    (({ sourceRGBA := [1, 2, 3, 4, 5, 6, 7, 8], width := 2, height := 1 } :
        VTFWriter.WriterState).generateMipmaps = true ∧
     1 ≤ ({ sourceRGBA := [1, 2, 3, 4, 5, 6, 7, 8], width := 2, height := 1 } :
        VTFWriter.WriterState).width ∧
     ([1, 2, 3, 4, 5, 6, 7, 8] : List Nat).length = 2 * 1 * 4) ∧
    VTFWriter.GenerateMipmaps
        { sourceRGBA := [1, 2, 3, 4, 5, 6, 7, 8], width := 2, height := 1 } =
      VTFWriter.buildMips [1, 2, 3, 4, 5, 6, 7, 8] 2 1 ∧
    VTFWriter.mipDims 6 6 = [(6, 6), (3, 3), (1, 1)] :=
  ⟨⟨by decide, by decide, by decide⟩,
   (c8_mip_pyramid { sourceRGBA := [1, 2, 3, 4, 5, 6, 7, 8], width := 2, height := 1 }
      (by decide) (by decide) (by decide) (by decide)).1,
   (c8_mip_pyramid { sourceRGBA := [1, 2, 3, 4, 5, 6, 7, 8], width := 2, height := 1 }
      (by decide) (by decide) (by decide) (by decide)).2.2.2.2.2.2.2.2.2⟩

/-! ## Claim C10: DecompressDXT destination writes stay in bounds -/

theorem writeByte_out {d : Nat → Nat} {i v j : Nat} (h : j ≠ i) :
    VTF.writeByte d i v j = d j := by
  simp [VTF.writeByte, h]

theorem writePx_out {d : Nat → Nat} {i j : Nat} {p : VTF.Px}
    (h : ∀ t, t < 4 → j ≠ i + t) :
    VTF.writePx d i p j = d j := by
  rw [VTF.writePx, writeByte_out (h 3 (by norm_num)),
    writeByte_out (h 2 (by norm_num)), writeByte_out (h 1 (by norm_num))]
  have h0 := h 0 (by norm_num)
  rw [writeByte_out (by omega)]

theorem foldl_writeByte_out (L : List (Nat × Nat)) (addr g : Nat × Nat → Nat)
    (d : Nat → Nat) (j : Nat) (hj : ∀ p ∈ L, j ≠ addr p) :
    L.foldl (fun d p => VTF.writeByte d (addr p) (g p)) d j = d j := by
  induction L generalizing d with
  | nil => rfl
  | cons p t ih =>
    rw [List.foldl_cons, ih _ (fun q hq => hj q (List.mem_cons.mpr (Or.inr hq)))]
    exact writeByte_out (hj p (List.mem_cons.mpr (Or.inl rfl)))

theorem foldl_writePx_out (L : List (Nat × Nat)) (addr : Nat × Nat → Nat)
    (g : Nat × Nat → VTF.Px) (d : Nat → Nat) (j : Nat)
    (hj : ∀ p ∈ L, ∀ t, t < 4 → j ≠ addr p + t) :
    L.foldl (fun d p => VTF.writePx d (addr p) (g p)) d j = d j := by
  induction L generalizing d with
  | nil => rfl
  | cons p t ih =>
    rw [List.foldl_cons, ih _ (fun q hq => hj q (List.mem_cons.mpr (Or.inr hq)))]
    exact writePx_out (hj p (List.mem_cons.mpr (Or.inl rfl)))

theorem blockPixels_mem {p : Nat × Nat} (hp : p ∈ DXT.blockPixels) :
    p.1 < 4 ∧ p.2 < 4 := by
  rw [DXT.blockPixels] at hp
  obtain ⟨y, hy, hmem⟩ := List.mem_flatMap.mp hp
  obtain ⟨x, hx, rfl⟩ := List.mem_map.mp hmem
  exact ⟨List.mem_range.mp hy, List.mem_range.mp hx⟩

theorem dxt1Block_out (src : List Nat) (off : Nat) (d : Nat → Nat)
    (base pitch : Nat) (ha : Bool) (j : Nat)
    (hj : ∀ y x, y < 4 → x < 4 → ∀ t, t < 4 → j ≠ base + y * pitch + x * 4 + t) :
    DXT.DecompressDXT1Block src off d base pitch ha j = d j := by
  rw [DXT.DecompressDXT1Block]
  exact foldl_writePx_out DXT.blockPixels
    (fun yx => base + yx.1 * pitch + yx.2 * 4) _ d j
    (fun p hp t ht => by
      have hp4 := blockPixels_mem hp
      exact hj p.1 p.2 hp4.1 hp4.2 t ht)

theorem dxt3Block_out (src : List Nat) (off : Nat) (d : Nat → Nat)
    (base pitch : Nat) (j : Nat)
    (hj : ∀ y x, y < 4 → x < 4 → ∀ t, t < 4 → j ≠ base + y * pitch + x * 4 + t) :
    DXT.DecompressDXT3Block src off d base pitch j = d j := by
  rw [DXT.DecompressDXT3Block]
  rw [foldl_writeByte_out DXT.blockPixels
    (fun yx => base + yx.1 * pitch + yx.2 * 4 + 3) _ _ j
    (fun p hp => by
      have hp4 := blockPixels_mem hp
      exact hj p.1 p.2 hp4.1 hp4.2 3 (by norm_num))]
  exact dxt1Block_out src (off + 8) d base pitch false j hj

theorem dxt5Block_out (src : List Nat) (off : Nat) (d : Nat → Nat)
    (base pitch : Nat) (j : Nat)
    (hj : ∀ y x, y < 4 → x < 4 → ∀ t, t < 4 → j ≠ base + y * pitch + x * 4 + t) :
    DXT.DecompressDXT5Block src off d base pitch j = d j := by
  rw [DXT.DecompressDXT5Block]
  rw [foldl_writeByte_out DXT.blockPixels
    (fun yx => base + yx.1 * pitch + yx.2 * 4 + 3) _ _ j
    (fun p hp => by
      have hp4 := blockPixels_mem hp
      exact hj p.1 p.2 hp4.1 hp4.2 3 (by norm_num))]
  exact dxt1Block_out src (off + 8) d base pitch false j hj

theorem decodeBlockAt_out (src : List Nat) (srcOff : Nat) (d : Nat → Nat)
    (base pitch : Nat) (fmt : Int) (j : Nat)
    (hj : ∀ y x, y < 4 → x < 4 → ∀ t, t < 4 → j ≠ base + y * pitch + x * 4 + t) :
    (DXT.decodeBlockAt src srcOff d base pitch fmt).1 j = d j := by
  rw [DXT.decodeBlockAt]
  split
  · exact dxt1Block_out _ _ _ _ _ _ _ hj
  · split
    · exact dxt3Block_out _ _ _ _ _ _ hj
    · split
      · exact dxt5Block_out _ _ _ _ _ _ hj
      · rfl

theorem addr_lt (w h yy v : Nat) (hyy : yy < h) (hv : v < w * 4) :
    yy * (w * 4) + v < w * h * 4 := by
  have h1 : yy * (w * 4) + v < (yy + 1) * (w * 4) := by
    have : (yy + 1) * (w * 4) = yy * (w * 4) + w * 4 := by ring
    omega
  have h2 : (yy + 1) * (w * 4) ≤ h * (w * 4) :=
    Nat.mul_le_mul_right _ hyy
  have h3 : h * (w * 4) = w * h * 4 := by ring
  omega

theorem decompressStep_out (src : List Nat) (w h : Nat) (fmt : Int)
    (acc : (Nat → Nat) × Nat) (b : Nat × Nat) (j : Nat) (hj : w * h * 4 ≤ j) :
    (DXT.decompressStep src w h fmt acc b).1 j = acc.1 j := by
  rw [DXT.decompressStep]
  split
  next hpart =>
    apply foldl_writeByte_out
    intro p hp
    obtain ⟨y, hy, hmem⟩ := List.mem_flatMap.mp hp
    obtain ⟨t, ht, rfl⟩ := List.mem_map.mp hmem
    rw [List.mem_range] at hy ht
    intro hjeq
    dsimp only at hjeq
    have hrow : b.1 * 4 + y < h := by
      rcases Nat.lt_or_ge h (b.1 * 4 + 4) with hcase | hcase
      · split at hy <;> omega
      · split at hy <;> omega
    have hcol : b.2 * 4 * 4 + t < w * 4 := by
      rcases Nat.lt_or_ge w (b.2 * 4 + 4) with hcase | hcase
      · split at ht <;> omega
      · split at ht <;> omega
    have hlt := addr_lt w h (b.1 * 4 + y) (b.2 * 4 * 4 + t) hrow hcol
    omega
  next hpart =>
    apply decodeBlockAt_out
    intro y x hy hx t ht hjeq
    push_neg at hpart
    have hrow : b.1 * 4 + y < h := by omega
    have hcol : b.2 * 4 * 4 + (x * 4 + t) < w * 4 := by omega
    have hlt := addr_lt w h (b.1 * 4 + y) (b.2 * 4 * 4 + (x * 4 + t)) hrow hcol
    have hring : (b.1 * 4 + y) * (w * 4) =
        b.1 * 4 * (w * 4) + y * (w * 4) := by ring
    omega

/-- C10: for `w, h ≥ 1` and a DXT format, `DecompressDXT` changes no
byte of the destination store at or beyond `w*h*4`: overhanging blocks
go through the 64-byte temporary block and only in-bounds pixels are
copied out. -/
theorem c10_decompress_in_bounds (src : List Nat) (dst : Nat → Nat)
    (w h : Nat) (fmt : Int) (hw : 1 ≤ w) (hh : 1 ≤ h)
    (hf : fmt = 13 ∨ fmt = 14 ∨ fmt = 15 ∨ fmt = 20)
    (j : Nat) (hj : w * h * 4 ≤ j) :
    DXT.DecompressDXT src dst w h fmt j = dst j := by
  rw [DXT.DecompressDXT]
  generalize ((List.range ((h + 3) / 4)).flatMap fun by_ =>
    (List.range ((w + 3) / 4)).map fun bx => (by_, bx)) = blocks
  have hgen : ∀ (L : List (Nat × Nat)) (acc : (Nat → Nat) × Nat),
      acc.1 j = dst j → (L.foldl (DXT.decompressStep src w h fmt) acc).1 j = dst j := by
    intro L
    induction L with
    | nil => intro acc hacc; exact hacc
    | cons b t ih =>
      intro acc hacc
      rw [List.foldl_cons]
      exact ih _ (by rw [decompressStep_out src w h fmt acc b j hj]; exact hacc)
  exact hgen blocks (dst, 0) rfl

/-- C10 witness: the bound applied to a 5×3 DXT1 image (overhanging
blocks on both axes) at the first out-of-range byte. -/
theorem c10_decompress_in_bounds_witness :
    (1 ≤ 5 ∧ 1 ≤ 3 ∧ ((13 : Int) = 13 ∨ (13 : Int) = 14 ∨ (13 : Int) = 15 ∨
      (13 : Int) = 20) ∧ 5 * 3 * 4 ≤ 60) ∧
    DXT.DecompressDXT (List.replicate 32 0) (fun _ => 9) 5 3 13 60 =
      (fun _ : Nat => 9) 60 :=
  ⟨⟨by decide, by decide, by decide, by decide⟩,
   c10_decompress_in_bounds (List.replicate 32 0) (fun _ => 9) 5 3 13
     (by decide) (by decide) (by decide) 60 (by decide)⟩

/-! ## Claim C1: RGBA8888 round trip -/

theorem range_map_byteAt (l : List Nat) :
    (List.range l.length).map (fun i => VTF.byteAt l i) = l := by
  apply List.ext_getElem
  · simp
  · intro i h1 h2
    simp [VTF.byteAt, List.getD, List.getElem?_eq_getElem h2]

theorem clamp1_eq (x : Nat) : (if x < 1 then 1 else x) = max 1 x := by
  split <;> omega

theorem max1_halveDim_shift (w i : Nat) :
    max 1 (VTF.halveDim w >>> i) = max 1 (w >>> (i + 1)) := by
  rw [halveDim_eq, Nat.shiftRight_eq_div_pow, Nat.shiftRight_eq_div_pow]
  have hdd : w / 2 ^ (i + 1) = w / 2 / 2 ^ i := by
    rw [Nat.div_div_eq_div_mul]
    ring_nf
  rw [hdd]
  rcases Nat.eq_zero_or_pos (w / 2) with hz | hpos
  · rw [hz]
    cases i with
    | zero => simp
    | succ j =>
      have h2 : (1 : Nat) < 2 ^ (j + 1) := Nat.one_lt_two_pow_iff.mpr (by omega)
      have h1 : (1 : Nat) / 2 ^ (j + 1) = 0 := Nat.div_eq_of_lt h2
      simp [h1]
  · have : max 1 (w / 2) = w / 2 := by omega
    rw [this]

theorem mipDims_getD_shift :
    ∀ (n w h : Nat), max w 1 + max h 1 = n → 1 ≤ w → 1 ≤ h →
      ∀ i, i < (VTFWriter.mipDims w h).length →
        (VTFWriter.mipDims w h).getD i (0, 0) =
          (max 1 (w >>> i), max 1 (h >>> i)) := by
  intro n
  induction n using Nat.strong_induction_on with
  | _ n ih =>
    intro w h hn hw hh i hi
    rw [VTFWriter.mipDims] at hi ⊢
    by_cases hcond : w > 1 ∨ h > 1
    · rw [if_pos hcond] at hi ⊢
      cases i with
      | zero =>
        simp only [List.getD_cons_zero, Nat.shiftRight_zero]
        rw [Nat.max_eq_right hw, Nat.max_eq_right hh]
      | succ i' =>
        simp only [List.getD_cons_succ]
        rw [ih _ (hn ▸ halveDim_measure w h hcond) _ _ rfl (halveDim_pos w)
          (halveDim_pos h) i' (by simpa using hi)]
        rw [max1_halveDim_shift, max1_halveDim_shift]
    · rw [if_neg hcond]
      cases i with
      | zero =>
        simp only [List.getD_cons_zero, Nat.shiftRight_zero]
        rw [Nat.max_eq_right hw, Nat.max_eq_right hh]
      | succ i' =>
        rw [if_neg hcond] at hi
        simp at hi

theorem mipDims_length_le :
    ∀ (k w h : Nat), w ≤ 2 ^ k → h ≤ 2 ^ k →
      (VTFWriter.mipDims w h).length ≤ k + 1 := by
  intro k
  induction k with
  | zero =>
    intro w h hw hh
    rw [VTFWriter.mipDims]
    have : ¬(w > 1 ∨ h > 1) := by
      simp only [pow_zero] at hw hh
      omega
    rw [if_neg this]
    simp
  | succ m ih =>
    intro w h hw hh
    rw [VTFWriter.mipDims]
    by_cases hcond : w > 1 ∨ h > 1
    · rw [if_pos hcond]
      have hhal : ∀ v, v ≤ 2 ^ (m + 1) → VTF.halveDim v ≤ 2 ^ m := by
        intro v hv
        rw [halveDim_eq]
        have h2 : v / 2 ≤ 2 ^ m := by
          rw [pow_succ] at hv
          omega
        have h1 : (1 : Nat) ≤ 2 ^ m := Nat.one_le_two_pow
        omega
      have := ih _ _ (hhal w hw) (hhal h hh)
      simp only [List.length_cons]
      omega
    · rw [if_neg hcond]
      simp

theorem calcSize_rgba (w h : Nat) (hw : 1 ≤ w) (hh : 1 ≤ h) :
    VTF.CalculateImageSize w h 0 = w * h * 4 := by
  rw [VTF.CalculateImageSize]
  simp only [if_neg (by omega : ¬w < 1), if_neg (by omega : ¬h < 1)]
  norm_num [VTF.GetBytesPerPixel]

theorem totalMipBytes_eq_levels :
    ∀ (n w h : Nat), max w 1 + max h 1 = n → 1 ≤ w → 1 ≤ h →
      VTFLoader.totalMipBytes w h 0 1 ((VTFWriter.mipDims w h).length) =
        ((List.range ((VTFWriter.mipDims w h).length)).map fun k =>
          ((VTFWriter.mipDims w h).getD k (0, 0)).1 *
            ((VTFWriter.mipDims w h).getD k (0, 0)).2 * 4).sum := by
  intro n
  induction n using Nat.strong_induction_on with
  | _ n ih =>
    intro w h hn hw hh
    rw [VTFWriter.mipDims]
    by_cases hcond : w > 1 ∨ h > 1
    · rw [if_pos hcond]
      simp only [List.length_cons]
      rw [VTFLoader.totalMipBytes, List.range_succ_eq_map]
      simp only [List.map_cons, List.map_map, List.sum_cons, List.getD_cons_zero,
        Function.comp]
      have hrec := ih _ (hn ▸ halveDim_measure w h hcond) _ _ rfl (halveDim_pos w)
        (halveDim_pos h)
      rw [calcSize_rgba w h hw hh]
      have hcc : List.map ((fun k =>
            (((w, h) :: VTFWriter.mipDims (VTF.halveDim w) (VTF.halveDim h)).getD k
              (0, 0)).1 *
              (((w, h) :: VTFWriter.mipDims (VTF.halveDim w) (VTF.halveDim h)).getD k
                (0, 0)).2 * 4) ∘ Nat.succ)
            (List.range (VTFWriter.mipDims (VTF.halveDim w) (VTF.halveDim h)).length) =
          List.map (fun k =>
            ((VTFWriter.mipDims (VTF.halveDim w) (VTF.halveDim h)).getD k (0, 0)).1 *
              ((VTFWriter.mipDims (VTF.halveDim w) (VTF.halveDim h)).getD k (0, 0)).2 * 4)
            (List.range (VTFWriter.mipDims (VTF.halveDim w) (VTF.halveDim h)).length) :=
        rfl
      rw [hcc]
      omega
    · rw [if_neg hcond]
      have hl : ([((w, h))] : List (Nat × Nat)).length = 1 := rfl
      rw [hl, VTFLoader.totalMipBytes, VTFLoader.totalMipBytes, calcSize_rgba w h hw hh]
      simp [List.range_succ]

theorem skipSmallerBytes_eq_levels :
    ∀ (n w h : Nat), max w 1 + max h 1 = n → 1 ≤ w → 1 ≤ h →
      VTFLoader.skipSmallerBytes w h 0 1 ((VTFWriter.mipDims w h).length - 1) =
        ((List.range ((VTFWriter.mipDims w h).length - 1)).map fun k =>
          ((VTFWriter.mipDims w h).getD (k + 1) (0, 0)).1 *
            ((VTFWriter.mipDims w h).getD (k + 1) (0, 0)).2 * 4).sum := by
  intro n
  induction n using Nat.strong_induction_on with
  | _ n ih =>
    intro w h hn hw hh
    rw [VTFWriter.mipDims]
    by_cases hcond : w > 1 ∨ h > 1
    · rw [if_pos hcond]
      simp only [List.length_cons, Nat.add_sub_cancel]
      have hlen : 1 ≤ (VTFWriter.mipDims (VTF.halveDim w) (VTF.halveDim h)).length := by
        rw [VTFWriter.mipDims]
        simp
      obtain ⟨m, hm⟩ : ∃ m, (VTFWriter.mipDims (VTF.halveDim w) (VTF.halveDim h)).length =
          m + 1 := ⟨_, (Nat.succ_pred_eq_of_pos hlen).symm⟩
      rw [hm]
      rw [VTFLoader.skipSmallerBytes, List.range_succ_eq_map]
      simp only [List.map_cons, List.map_map, List.sum_cons, List.getD_cons_succ,
        List.getD_cons_zero, Function.comp]
      have hrec := ih _ (hn ▸ halveDim_measure w h hcond) _ _ rfl (halveDim_pos w)
        (halveDim_pos h)
      rw [hm, Nat.add_sub_cancel] at hrec
      have hhead : (VTFWriter.mipDims (VTF.halveDim w) (VTF.halveDim h)).getD 0 (0, 0) =
          (VTF.halveDim w, VTF.halveDim h) := mipDims_getD_zero _ _
      rw [hhead, calcSize_rgba _ _ (halveDim_pos w) (halveDim_pos h)]
      dsimp only
      have hcc : List.map ((fun k =>
            ((VTFWriter.mipDims (VTF.halveDim w) (VTF.halveDim h)).getD k (0, 0)).1 *
              ((VTFWriter.mipDims (VTF.halveDim w) (VTF.halveDim h)).getD k (0, 0)).2 *
              4) ∘ Nat.succ) (List.range m) =
          List.map (fun k =>
            ((VTFWriter.mipDims (VTF.halveDim w) (VTF.halveDim h)).getD (k + 1) (0, 0)).1 *
              ((VTFWriter.mipDims (VTF.halveDim w) (VTF.halveDim h)).getD (k + 1) (0, 0)).2 *
              4) (List.range m) := rfl
      rw [hcc]
      omega
    · rw [if_neg hcond]
      simp [VTFLoader.skipSmallerBytes]

theorem reverse_range_flatMap_split (m : Nat) (g : Nat → List Nat) :
    (List.range (m + 1)).reverse.flatMap g =
      (List.range m).reverse.flatMap (fun k => g (k + 1)) ++ g 0 := by
  rw [List.range_succ_eq_map, List.reverse_cons, List.flatMap_append,
    ← List.map_reverse, List.flatMap_map]
  simp

theorem reverse_range_flatMap_length (m : Nat) (g : Nat → List Nat) :
    ((List.range m).reverse.flatMap g).length =
      ((List.range m).map fun k => (g k).length).sum := by
  rw [List.length_flatMap, List.map_reverse, List.sum_reverse]
  rfl

theorem writeHeaderBytes_length (wr : VTFWriter.WriterState) (n : Nat) :
    (VTFWriter.writeHeaderBytes wr n).length = 80 := rfl

theorem writer_header_parse (wr : VTFWriter.WriterState) (n : Nat)
    (rest : List Nat) (hfmt : wr.format = 0) (hw : wr.width < 65536)
    (hh : wr.height < 65536) (hn1 : 1 ≤ n) (hn : n < 256) :
    VTFLoader.ParseHeader VTFLoader.initLoader
        (VTFWriter.writeHeaderBytes wr n ++ rest) =
      (true,
       { width := wr.width, height := wr.height, frameCount := 1,
         mipmapCount := n, hasAlpha := true, format := 0,
         versionMajor := 7, versionMinor := 2, rgbaData := [], error := "" }) := by
  have hlen : (VTFWriter.writeHeaderBytes wr n ++ rest).length = 80 + rest.length := by
    rw [List.length_append, writeHeaderBytes_length]
  have hb : ∀ i, i < 80 → VTF.byteAt (VTFWriter.writeHeaderBytes wr n ++ rest) i =
      VTF.byteAt (VTFWriter.writeHeaderBytes wr n) i := by
    intro i hi
    rw [VTF.byteAt, VTF.byteAt, List.getD_append]
    rw [writeHeaderBytes_length]
    exact hi
  have h0 : VTF.byteAt (VTFWriter.writeHeaderBytes wr n ++ rest) 0 = 86 := by
    rw [hb 0 (by norm_num)]; rfl
  have h1 : VTF.byteAt (VTFWriter.writeHeaderBytes wr n ++ rest) 1 = 84 := by
    rw [hb 1 (by norm_num)]; rfl
  have h2 : VTF.byteAt (VTFWriter.writeHeaderBytes wr n ++ rest) 2 = 70 := by
    rw [hb 2 (by norm_num)]; rfl
  have h3 : VTF.byteAt (VTFWriter.writeHeaderBytes wr n ++ rest) 3 = 0 := by
    rw [hb 3 (by norm_num)]; rfl
  have hv4 : VTF.readU32 (VTFWriter.writeHeaderBytes wr n ++ rest) 4 = 7 := by
    rw [VTF.readU32, hb 4 (by norm_num), hb 5 (by norm_num), hb 6 (by norm_num),
      hb 7 (by norm_num)]
    rfl
  have hv8 : VTF.readU32 (VTFWriter.writeHeaderBytes wr n ++ rest) 8 = 2 := by
    rw [VTF.readU32, hb 8 (by norm_num), hb 9 (by norm_num), hb 10 (by norm_num),
      hb 11 (by norm_num)]
    rfl
  have hw16 : VTF.readU16 (VTFWriter.writeHeaderBytes wr n ++ rest) 16 = wr.width := by
    rw [VTF.readU16, hb 16 (by norm_num), hb 17 (by norm_num)]
    have e1 : VTF.byteAt (VTFWriter.writeHeaderBytes wr n) 16 = wr.width % 256 := rfl
    have e2 : VTF.byteAt (VTFWriter.writeHeaderBytes wr n) 17 =
        wr.width / 256 % 256 := rfl
    rw [e1, e2]
    omega
  have hh18 : VTF.readU16 (VTFWriter.writeHeaderBytes wr n ++ rest) 18 = wr.height := by
    rw [VTF.readU16, hb 18 (by norm_num), hb 19 (by norm_num)]
    have e1 : VTF.byteAt (VTFWriter.writeHeaderBytes wr n) 18 = wr.height % 256 := rfl
    have e2 : VTF.byteAt (VTFWriter.writeHeaderBytes wr n) 19 =
        wr.height / 256 % 256 := rfl
    rw [e1, e2]
    omega
  have hf24 : VTF.readU16 (VTFWriter.writeHeaderBytes wr n ++ rest) 24 = 1 := by
    rw [VTF.readU16, hb 24 (by norm_num), hb 25 (by norm_num)]
    rfl
  have hfmt52 : VTF.readU32 (VTFWriter.writeHeaderBytes wr n ++ rest) 52 = 0 := by
    rw [VTF.readU32, hb 52 (by norm_num), hb 53 (by norm_num), hb 54 (by norm_num),
      hb 55 (by norm_num)]
    have e1 : VTF.byteAt (VTFWriter.writeHeaderBytes wr n) 52 =
        VTF.intToU32 wr.format % 256 := rfl
    have e2 : VTF.byteAt (VTFWriter.writeHeaderBytes wr n) 53 =
        VTF.intToU32 wr.format / 256 % 256 := rfl
    have e3 : VTF.byteAt (VTFWriter.writeHeaderBytes wr n) 54 =
        VTF.intToU32 wr.format / 65536 % 256 := rfl
    have e4 : VTF.byteAt (VTFWriter.writeHeaderBytes wr n) 55 =
        VTF.intToU32 wr.format / 16777216 % 256 := rfl
    rw [e1, e2, e3, e4, hfmt]
    rfl
  have hm56 : VTF.byteAt (VTFWriter.writeHeaderBytes wr n ++ rest) 56 = n := by
    rw [hb 56 (by norm_num)]
    have e1 : VTF.byteAt (VTFWriter.writeHeaderBytes wr n) 56 = n % 256 := rfl
    rw [e1]
    omega
  rw [VTFLoader.ParseHeader]
  rw [if_neg (by omega)]
  rw [if_neg (by rw [h0, h1, h2, h3]; simp)]
  rw [hv4, hv8]
  have hu7 : VTF.u32toInt 7 = 7 := rfl
  have hu2 : VTF.u32toInt 2 = 2 := rfl
  rw [if_neg (by rw [hu7, hu2]; norm_num)]
  rw [hu7, hu2, hfmt52, hf24, hw16, hh18, hm56]
  have hu0 : VTF.u32toInt 0 = 0 := rfl
  rw [hu0]
  norm_num [VTF.FormatHasAlpha, VTFLoader.initLoader]
  omega

theorem byteAt_cons_zero (a : Nat) (l : List Nat) : VTF.byteAt (a :: l) 0 = a := rfl

theorem byteAt_cons_succ (a : Nat) (l : List Nat) (i : Nat) :
    VTF.byteAt (a :: l) (i + 1) = VTF.byteAt l i := by
  simp [VTF.byteAt]

theorem flatMap_congr_mem {l : List Nat} {f g : Nat → List Nat}
    (h : ∀ a ∈ l, f a = g a) : l.flatMap f = l.flatMap g := by
  induction l with
  | nil => rfl
  | cons x xs ih =>
    rw [List.flatMap_cons, List.flatMap_cons, h x (List.mem_cons_self x xs),
      ih fun a ha => h a (List.mem_cons_of_mem x ha)]

theorem writer_dataOffset (wr : VTFWriter.WriterState) (n : Nat) (rest : List Nat) :
    VTFLoader.dataOffset (VTFWriter.writeHeaderBytes wr n ++ rest) = 80 := by
  have hb : ∀ i, i < 80 → VTF.byteAt (VTFWriter.writeHeaderBytes wr n ++ rest) i =
      VTF.byteAt (VTFWriter.writeHeaderBytes wr n) i := by
    intro i hi
    rw [VTF.byteAt, VTF.byteAt, List.getD_append]
    rw [writeHeaderBytes_length]
    exact hi
  have h12 : VTF.readU32 (VTFWriter.writeHeaderBytes wr n ++ rest) 12 = 80 := by
    rw [VTF.readU32, hb 12 (by norm_num), hb 13 (by norm_num), hb 14 (by norm_num),
      hb 15 (by norm_num)]
    simp only [VTFWriter.writeHeaderBytes, byteAt_cons_succ, byteAt_cons_zero]
  have h57 : VTF.readU32 (VTFWriter.writeHeaderBytes wr n ++ rest) 57 = 4294967295 := by
    rw [VTF.readU32, hb 57 (by norm_num), hb 58 (by norm_num), hb 59 (by norm_num),
      hb 60 (by norm_num)]
    simp only [VTFWriter.writeHeaderBytes, byteAt_cons_succ, byteAt_cons_zero]
  rw [VTFLoader.dataOffset, h12]
  have hcond : ¬(VTF.readU32 (VTFWriter.writeHeaderBytes wr n ++ rest) 57 ≠ 4294967295 ∧
      VTF.byteAt (VTFWriter.writeHeaderBytes wr n ++ rest) 61 > 0 ∧
      VTF.byteAt (VTFWriter.writeHeaderBytes wr n ++ rest) 62 > 0) := by
    rw [h57]
    simp
  rw [if_neg hcond]

theorem compress_piece_eq_level (w h mip : Nat) (img : List Nat)
    (hw : 1 ≤ w) (hh : 1 ≤ h) (hlen : img.length = w * h * 4)
    (hm : mip < (VTFWriter.mipDims w h).length) :
    VTFWriter.CompressImage 0 ((VTFWriter.buildMips img w h).getD mip [])
        (if w >>> mip < 1 then 1 else w >>> mip)
        (if h >>> mip < 1 then 1 else h >>> mip) =
      (VTFWriter.buildMips img w h).getD mip [] := by
  have hdims := mipDims_getD_shift _ w h rfl hw hh mip hm
  have hlev := (buildMips_level_lengths _ w h img rfl hlen).2 mip
  rw [VTFWriter.CompressImage]
  rw [if_neg (by norm_num), if_neg (by norm_num)]
  rw [VTFWriter.ConvertFromRGBA]
  rw [if_pos rfl, clamp1_eq, clamp1_eq]
  have hcount : max 1 (w >>> mip) * max 1 (h >>> mip) * 4 =
      ((VTFWriter.buildMips img w h).getD mip []).length := by
    rw [hlev, hdims]
  rw [hcount, range_map_byteAt]

theorem buildMips_getD_zero (src : List Nat) (w h : Nat) :
    (VTFWriter.buildMips src w h).getD 0 [] = src := by
  rw [VTFWriter.buildMips]
  rfl

theorem mipDims_len_pos (w h : Nat) : 1 ≤ (VTFWriter.mipDims w h).length := by
  rw [VTFWriter.mipDims]
  simp

theorem setImageData_rgba (img : List Nat) (w h : Nat) (al : Bool)
    (hlen : img.length = w * h * 4) :
    VTFWriter.SetImageData
        ({ format := VTF.IMAGE_FORMAT_RGBA8888 } : VTFWriter.WriterState) img w h al =
      { sourceRGBA := img, width := w, height := h, hasAlpha := al,
        format := 0, flags := 128, generateMipmaps := true } := by
  rw [VTFWriter.SetImageData]
  have hsrc : (List.range (w * h * 4)).map (fun i => VTF.byteAt img i) = img := by
    rw [← hlen, range_map_byteAt]
  simp [VTF.IMAGE_FORMAT_RGBA8888, hsrc]

theorem genMips_rgba (img : List Nat) (w h : Nat) (al : Bool) :
    VTFWriter.GenerateMipmaps
        { sourceRGBA := img, width := w, height := h, hasAlpha := al,
          format := 0, flags := 128, generateMipmaps := true } =
      VTFWriter.buildMips img w h := by
  rw [VTFWriter.GenerateMipmaps]
  simp

theorem writeToMemory_rgba (img : List Nat) (w h : Nat) (al : Bool)
    (hw : 1 ≤ w) (hh : 1 ≤ h) (hlen : img.length = w * h * 4) :
    VTFWriter.WriteToMemory
        { sourceRGBA := img, width := w, height := h, hasAlpha := al,
          format := 0, flags := 128, generateMipmaps := true } =
      VTFWriter.writeHeaderBytes
          { sourceRGBA := img, width := w, height := h, hasAlpha := al,
            format := 0, flags := 128, generateMipmaps := true }
          (VTFWriter.mipDims w h).length ++
        (List.range (VTFWriter.mipDims w h).length).reverse.flatMap
          (fun mip => (VTFWriter.buildMips img w h).getD mip []) := by
  have hmlen := (buildMips_level_lengths _ w h img rfl hlen).1
  simp only [VTFWriter.WriteToMemory, genMips_rgba, hmlen]
  congr 1
  apply flatMap_congr_mem
  intro mip hmip
  rw [List.mem_reverse, List.mem_range] at hmip
  exact compress_piece_eq_level w h mip img hw hh hlen hmip

/-- **C1.** Encoding any RGBA8 image (alpha values all 0 or 255) with
target format RGBA8888 via `VTFWriter::SetImageData` + `WriteToMemory`
and decoding the bytes with `VTFLoader::LoadFromMemory` succeeds and
returns the original width, height and byte-for-byte identical RGBA
data (the buffer `GetRGBAData` exposes). -/
theorem c1_rgba8888_roundtrip (img : List Nat) (w h : Nat) (al : Bool)
    (hw1 : 1 ≤ w) (hw2 : w < 65536) (hh1 : 1 ≤ h) (hh2 : h < 65536)
    (hlen : img.length = w * h * 4)
    (halpha : ∀ i, i < w * h →
      img.getD (4 * i + 3) 0 = 0 ∨ img.getD (4 * i + 3) 0 = 255) :
    VTFLoader.LoadFromMemory VTFLoader.initLoader
        (VTFWriter.WriteToMemory
          (VTFWriter.SetImageData
            ({ format := VTF.IMAGE_FORMAT_RGBA8888 } : VTFWriter.WriterState)
            img w h al)) =
      (true,
       { width := w, height := h, frameCount := 1,
         mipmapCount := (VTFWriter.mipDims w h).length, hasAlpha := true,
         format := 0, versionMajor := 7, versionMinor := 2,
         rgbaData := img, error := "" }) := by
  rw [setImageData_rgba img w h al hlen, writeToMemory_rgba img w h al hw1 hh1 hlen]
  have hlev := (buildMips_level_lengths _ w h img rfl hlen).2
  have hn1 : 1 ≤ (VTFWriter.mipDims w h).length := mipDims_len_pos w h
  have hn256 : (VTFWriter.mipDims w h).length < 256 := by
    have h16 : (2 : Nat) ^ 16 = 65536 := by norm_num
    have := mipDims_length_le 16 w h (by omega) (by omega)
    omega
  have hparse := writer_header_parse
    { sourceRGBA := img, width := w, height := h, hasAlpha := al,
      format := 0, flags := 128, generateMipmaps := true }
    (VTFWriter.mipDims w h).length
    ((List.range (VTFWriter.mipDims w h).length).reverse.flatMap
      (fun mip => (VTFWriter.buildMips img w h).getD mip []))
    rfl hw2 hh2 hn1 hn256
  simp only [VTFLoader.LoadFromMemory, hparse, if_true]
  have hdatalen :
      (VTFWriter.writeHeaderBytes
          { sourceRGBA := img, width := w, height := h, hasAlpha := al,
            format := 0, flags := 128, generateMipmaps := true }
          (VTFWriter.mipDims w h).length ++
        (List.range (VTFWriter.mipDims w h).length).reverse.flatMap
          (fun mip => (VTFWriter.buildMips img w h).getD mip [])).length =
      80 + ((List.range (VTFWriter.mipDims w h).length).reverse.flatMap
        (fun mip => (VTFWriter.buildMips img w h).getD mip [])).length := by
    rw [List.length_append, writeHeaderBytes_length]
  have htotal := totalMipBytes_eq_levels _ w h rfl hw1 hh1
  have hbodylen :
      ((List.range (VTFWriter.mipDims w h).length).reverse.flatMap
        (fun mip => (VTFWriter.buildMips img w h).getD mip [])).length =
      ((List.range ((VTFWriter.mipDims w h).length)).map fun k =>
        ((VTFWriter.mipDims w h).getD k (0, 0)).1 *
          ((VTFWriter.mipDims w h).getD k (0, 0)).2 * 4).sum := by
    rw [reverse_range_flatMap_length]
    apply congrArg List.sum
    apply List.map_congr_left
    intro k hk
    exact hlev k
  have hskip := skipSmallerBytes_eq_levels _ w h rfl hw1 hh1
  have hdrop :
      ((VTFWriter.writeHeaderBytes
          { sourceRGBA := img, width := w, height := h, hasAlpha := al,
            format := 0, flags := 128, generateMipmaps := true }
          (VTFWriter.mipDims w h).length ++
        (List.range (VTFWriter.mipDims w h).length).reverse.flatMap
          (fun mip => (VTFWriter.buildMips img w h).getD mip [])).drop
        (80 + VTFLoader.skipSmallerBytes w h 0 1
          ((VTFWriter.mipDims w h).length - 1))) = img := by
    obtain ⟨m, hm⟩ : ∃ m, (VTFWriter.mipDims w h).length = m + 1 :=
      ⟨(VTFWriter.mipDims w h).length - 1, by omega⟩
    have hsplit := reverse_range_flatMap_split m
      (fun mip => (VTFWriter.buildMips img w h).getD mip [])
    have hprelen : ((List.range m).reverse.flatMap
        (fun k => (VTFWriter.buildMips img w h).getD (k + 1) [])).length =
        VTFLoader.skipSmallerBytes w h 0 1 ((VTFWriter.mipDims w h).length - 1) := by
      rw [reverse_range_flatMap_length, hskip, hm, Nat.add_sub_cancel]
      apply congrArg List.sum
      apply List.map_congr_left
      intro k hk
      exact hlev (k + 1)
    rw [hm] at hprelen ⊢
    rw [hsplit, buildMips_getD_zero, ← List.append_assoc]
    have hfront : (VTFWriter.writeHeaderBytes
        { sourceRGBA := img, width := w, height := h, hasAlpha := al,
          format := 0, flags := 128, generateMipmaps := true } (m + 1) ++
        (List.range m).reverse.flatMap
          (fun k => (VTFWriter.buildMips img w h).getD (k + 1) [])).length =
        80 + VTFLoader.skipSmallerBytes w h 0 1 (m + 1 - 1) := by
      rw [List.length_append, writeHeaderBytes_length, hprelen]
    rw [← hfront, List.drop_left]
  simp only [VTFLoader.DecodeImage, writer_dataOffset]
  rw [if_neg (by omega)]
  rw [hdrop]
  have hconv : VTFLoader.ConvertToRGBA img w h 0 = (img, none) := by
    have h0 : VTFLoader.ConvertToRGBA img w h 0 =
        ((List.range (w * h * 4)).map fun i => VTF.byteAt img i, none) := rfl
    rw [h0, ← hlen, range_map_byteAt]
  rw [hconv]

/-- Witness for C1 at the concrete 1×1 image `[10, 20, 30, 255]`. -/
theorem c1_rgba8888_roundtrip_witness :
    VTFLoader.LoadFromMemory VTFLoader.initLoader
        (VTFWriter.WriteToMemory
          (VTFWriter.SetImageData
            ({ format := VTF.IMAGE_FORMAT_RGBA8888 } : VTFWriter.WriterState)
            [10, 20, 30, 255] 1 1 true)) =
      (true,
       { width := 1, height := 1, frameCount := 1,
         mipmapCount := (VTFWriter.mipDims 1 1).length, hasAlpha := true,
         format := 0, versionMajor := 7, versionMinor := 2,
         rgbaData := [10, 20, 30, 255], error := "" }) :=
  c1_rgba8888_roundtrip [10, 20, 30, 255] 1 1 true (by decide) (by decide)
    (by decide) (by decide) (by decide) (by decide)
